import Mathlib

/-!
Verification of the monopoly simulator (src/monopoly-simulator.py) against its
natural-language specification.

The Python program is shallowly embedded: the mutable `Board`/`Player` object
graph becomes one immutable `Board` state record (players referenced by list
index instead of by object reference), every mutating method becomes a state
transformer, Python `int` becomes `Int` (with `Int.fdiv` for Python's floor
division `//`), and the two `while` loops whose termination is not structural
(`check_bankruptcy`, and the repay/build loops inside `make_a_move`) take an
explicit fuel argument that is instantiated with a proven-sufficient bound.
Randomness (dice, shuffles) is modelled by passing dice values explicitly and
by leaving deck orders as data in the state.

Module-level configuration constants are embedded with their default values
from the source (no `config.py` overrides); branches that are statically dead
under those defaults (e.g. `behaveBuildRandom` shuffling) are kept as `if`s on
the constants, with the dead shuffle stubbed (it can never run).
-/

/-- List update at an index; out-of-range indices leave the list unchanged
(in the source these accesses are on known-valid indices). -/
def modifyIdx : List α → Nat → (α → α) → List α
  | [], _, _ => []
  | a :: as, 0, f => f a :: as
  | a :: as, n+1, f => a :: modifyIdx as n f

/-- Map with the element's index, used for the per-player recomputation loops. -/
def mapWithIdx (f : Nat → α → β) : List α → List β :=
  go 0
where
  go : Nat → List α → List β
    | _, [] => []
    | i, a :: as => f i a :: go (i+1) as

theorem modifyIdx_length (l : List α) (i : Nat) (f : α → α) :
    (modifyIdx l i f).length = l.length := by
  induction l generalizing i with
  | nil => rfl
  | cons a as ih =>
    cases i with
    | zero => rfl
    | succ n => simpa [modifyIdx] using ih n

theorem modifyIdx_get?_self (l : List α) (i : Nat) (f : α → α) (a : α)
    (h : l.get? i = some a) : (modifyIdx l i f).get? i = some (f a) := by
  induction l generalizing i with
  | nil => simp at h
  | cons x xs ih =>
    cases i with
    | zero => simp_all [modifyIdx]
    | succ n => simpa [modifyIdx] using ih n h

theorem modifyIdx_get?_ne (l : List α) (i j : Nat) (f : α → α) (h : i ≠ j) :
    (modifyIdx l i f).get? j = l.get? j := by
  induction l generalizing i j with
  | nil => rfl
  | cons x xs ih =>
    cases i with
    | zero => cases j with
      | zero => exact absurd rfl h
      | succ m => rfl
    | succ n =>
      cases j with
      | zero => rfl
      | succ m => simpa [modifyIdx] using ih n m (by omega)

/-- Stable insertion into a sorted list: an element is placed before the first
element it compares `le` to, so equal keys keep their original relative order
(matching Python's stable `list.sort`). -/
def insertLe (le : α → α → Bool) (x : α) : List α → List α
  | [] => [x]
  | y :: ys => if le x y then x :: y :: ys else y :: insertLe le x ys

/-- Stable sort (insertion sort), modelling Python's stable `list.sort(key=...)`. -/
def sortLe (le : α → α → Bool) : List α → List α
  | [] => []
  | x :: xs => insertLe le x (sortLe le xs)

/-- Modelled from the spec: the `util.PropertyGroup` enumeration (util.py is not
part of src/); §3 lists the groups in the order Brown, LightBlue, Pink, Orange,
Red, Yellow, Green, Indigo, Railroad, Utility. -/
inductive PropertyGroup where
  | BROWN | LIGHT_BLUE | PINK | ORANGE | RED | YELLOW | GREEN | INDIGO
  | RAILROAD | UTILITY
deriving DecidableEq, Inhabited

/-- Modelled from the spec: Python `Enum` members get `value` 1.. in declaration
order; only used as a sort key in `list_property_to_build`. -/
def PropertyGroup.value : PropertyGroup → Nat
  | .BROWN => 1 | .LIGHT_BLUE => 2 | .PINK => 3 | .ORANGE => 4 | .RED => 5
  | .YELLOW => 6 | .GREEN => 7 | .INDIGO => 8 | .RAILROAD => 9 | .UTILITY => 10

-- simulation / rule settings, default values from the top of the source file
def n_players : Nat := 4
def settingStartingMoney : Int := 1500
def settingsSalary : Int := 200
def settingsLuxuryTax : Int := 75
def settingsPropertyTax : Int := 200
def settingJailFine : Int := 50
def settingHouseLimit : Int := 32
def settingHotelLimit : Int := 12
def settingsAllowUnEqualDevelopment : Bool := false
def behave_unspendable_cash : Int := 0
def behaveUnmortgageCoeff : Int := 3
def behaveDoTrade : Bool := true
def behaveDoThreeWayTrade : Bool := true
def behaveBuildCheapest : Bool := false
def behaveBuildRandom : Bool := false
def expRefuseTrade : Bool := false
/-- Default `expRefuseProperty = ""` matches no `PropertyGroup`, modelled as `none`. -/
def expRefuseProperty : Option PropertyGroup := none
def expHouseBuildLimit : Nat := 100
def exp_unspendable_cash : Int := 0
def expBuildCheapest : Bool := false
def expBuildExpensive : Bool := false
def expBuildThree : Bool := false

/-- The `Property` cell data (class `Property` in the source). `owner` is a
player index (`None` becomes `none`). -/
structure Property where
  name : String
  cost_base : Int
  rent_base : Int
  cost_house : Int
  rent_house : List Int
  group : PropertyGroup
  owner : Option Nat
  is_mortgaged : Bool
  is_monopoly : Bool
  hasHouses : Nat
deriving DecidableEq, Inhabited

/-- `Property.__init__`. -/
def mkProperty (name : String) (cost_base rent_base cost_house : Int)
    (rent_house : List Int) (group : PropertyGroup) : Property :=
  { name := name, cost_base := cost_base, rent_base := rent_base,
    cost_house := cost_house, rent_house := rent_house, group := group,
    owner := none, is_mortgaged := false, is_monopoly := false, hasHouses := 0 }

/-- One board cell. The source dispatches on the runtime class of the cell;
plain `Cell` instances ("Go", "Prison", "Free Parking") all have a no-op
action and are kept as distinct tags. -/
inductive Cell where
  | go
  | prison
  | freeParking
  | property (p : Property)
  | luxuryTax
  | propertyTax
  | goToJail
  | chance
  | community
deriving DecidableEq, Inhabited

/-- One entry of `plots_to_build`: the source caches the tuple
`(i, plot.name, plot.group, plot.hasHouses, plot.cost_house, plot.cost_base)`. -/
structure BuildItem where
  idx : Nat
  name : String
  group : PropertyGroup
  hasHouses : Nat
  cost_house : Int
  cost_base : Int
deriving DecidableEq, Inhabited

/-- Mutable player state (class `Player`). `has_mortgages` entries are
`(plot index, redemption price)` pairs. -/
structure Player where
  name : String
  position : Nat
  money : Int
  consequent_doubles : Nat
  in_jail : Bool
  days_in_jail : Nat
  has_jail_card_chance : Bool
  has_jail_card_community : Bool
  is_bankrupt : Bool
  has_mortgages : List (Nat × Int)
  plots_wanted : List Nat
  plots_offered : List Nat
  plots_to_build : List BuildItem
  cash_limit : Int
  dice : Nat × Nat
deriving DecidableEq, Inhabited

/-- `Player.__init__`. -/
def mkPlayer (name : String) (starting_money : Int) : Player :=
  { name := name, position := 0, money := starting_money,
    consequent_doubles := 0, in_jail := false, days_in_jail := 0,
    has_jail_card_chance := false, has_jail_card_community := false,
    is_bankrupt := false, has_mortgages := [], plots_wanted := [],
    plots_offered := [], plots_to_build := [],
    cash_limit := if name = "exp" then exp_unspendable_cash
                  else behave_unspendable_cash,
    dice := (0, 0) }

/-- The whole mutable object graph of one game: the `Board` (cells, building
counters, decks) together with its `players` list. -/
structure Board where
  b : List Cell
  players : List Player
  nHouses : Int
  nHotels : Int
  chanceCards : List Nat
  communityCards : List Nat
deriving DecidableEq, Inhabited

/-- Read a player by index (always in range in the source). -/
def Board.pl (s : Board) (pid : Nat) : Player := s.players.getD pid default

/-- Update a player in place. -/
def Board.setPl (s : Board) (pid : Nat) (f : Player → Player) : Board :=
  { s with players := modifyIdx s.players pid f }

/-- Update the property stored at a cell index (no-op on non-property cells,
which the source never hits on these paths). -/
def Board.setProp (s : Board) (i : Nat) (f : Property → Property) : Board :=
  { s with b := modifyIdx s.b i fun c => match c with
      | Cell.property p => Cell.property (f p)
      | c => c }

/-- Read the property at a cell index; the source would raise on a
non-property cell, which cannot happen on the call sites that use this. -/
def Board.propAt (s : Board) (i : Nat) : Property :=
  match s.b.get? i with
  | some (Cell.property p) => p
  | _ => default

/-- `Player.add_money`. -/
def Board.add_money (s : Board) (pid : Nat) (amount : Int) : Board :=
  s.setPl pid fun p => { p with money := p.money + amount }

/-- `Player.take_money`. -/
def Board.take_money (s : Board) (pid : Nat) (amount : Int) : Board :=
  s.setPl pid fun p => { p with money := p.money - amount }

/-- `Player.move_to`. -/
def Board.move_to (s : Board) (pid : Nat) (position : Nat) : Board :=
  s.setPl pid fun p => { p with position := position }

/-- `Board.count_rails`: number of railroads owned by the owner of `position`
(0 when `position` is unowned). -/
def Board.count_rails (s : Board) (position : Nat) : Nat :=
  match s.b.get? position with
  | some (Cell.property p0) =>
    match p0.owner with
    | some oid =>
      (s.b.filter fun c => match c with
        | Cell.property p =>
            decide (p.group = PropertyGroup.RAILROAD ∧ p.owner = some oid)
        | _ => false).length
    | none => 0
  | _ => 0

/-- `Board.calculate_rent`. `special` is the `"from_chance"` doubling flag.
The source only calls this on property cells; on any other cell it would hit
an unbound local, modelled as `0`. -/
def Board.calculate_rent (s : Board) (position : Nat) (dice : Nat × Nat)
    (special : String) : Int :=
  match s.b.get? position with
  | some (Cell.property p) =>
    let dice_value : Int := ((dice.1 + dice.2 : Nat) : Int)
    if p.group = PropertyGroup.UTILITY then
      if p.is_monopoly ∨ special = "from_chance" then dice_value * 10
      else dice_value * 4
    else if p.group = PropertyGroup.RAILROAD then
      let rent : Int := 25 * (s.count_rails position : Int)
      if special = "from_chance" then rent * 2 else rent
    else
      if 0 < p.hasHouses then p.rent_house.getD (p.hasHouses - 1) 0
      else if p.is_monopoly then 2 * p.rent_base
      else p.rent_base
  | _ => 0

/-- Association-list lookup for the `groups` dict in `check_monopolies`
(Python dict keyed by group). -/
def assocFind : List (PropertyGroup × Option Nat) → PropertyGroup →
    Option (Option Nat)
  | [], _ => none
  | (k, v) :: rest, g => if k = g then some v else assocFind rest g

/-- Association-list write for the `groups` dict in `check_monopolies`. -/
def assocSet : List (PropertyGroup × Option Nat) → PropertyGroup → Option Nat →
    List (PropertyGroup × Option Nat)
  | [], g, v => [(g, v)]
  | (k, w) :: rest, g, v =>
      if k = g then (g, v) :: rest else (k, w) :: assocSet rest g v

/-- First pass of `Board.check_monopolies`: fold the board into the `groups`
dict; a value of `none` plays the role of Python's `False` (no monopoly),
`some o` records a candidate owner. -/
def monopolyGroups : List Cell → List (PropertyGroup × Option Nat) →
    List (PropertyGroup × Option Nat)
  | [], acc => acc
  | Cell.property p :: rest, acc =>
    (match p.owner with
     | none => monopolyGroups rest (assocSet acc p.group none)
     | some o =>
       match assocFind acc p.group with
       | none => monopolyGroups rest (assocSet acc p.group (some o))
       | some v =>
         if v = some o then monopolyGroups rest acc
         else monopolyGroups rest (assocSet acc p.group none))
  | _ :: rest, acc => monopolyGroups rest acc

/-- `Board.check_monopolies`: update `is_monopoly` of every property from the
`groups` dict (truthy value = a single owner holds every group member). -/
def Board.check_monopolies (s : Board) : Board :=
  let groups := monopolyGroups s.b []
  { s with b := s.b.map fun c => match c with
      | Cell.property p =>
        Cell.property { p with is_monopoly :=
          (match assocFind groups p.group with
           | some (some _) => true
           | _ => false) }
      | c => c }

/-- Number of board cells of group `g` (the `groups[group][0]` counter of
`get_list_of_wanted_plots`). -/
def Board.groupTotal (s : Board) (g : PropertyGroup) : Nat :=
  (s.b.filter fun c => match c with
    | Cell.property p => decide (p.group = g)
    | _ => false).length

/-- Number of board cells of group `g` owned by `pid` (the `groups[group][1]`
counter). -/
def Board.groupOwned (s : Board) (g : PropertyGroup) (pid : Nat) : Nat :=
  (s.b.filter fun c => match c with
    | Cell.property p => decide (p.group = g ∧ p.owner = some pid)
    | _ => false).length

/-- `Board.get_list_of_wanted_plots`: plots in a non-utility group of which
the player owns all members but one. The source appends the qualifying plots
group by group and then returns `sorted(wanted)`; since each qualifying index
appears exactly once, that equals this in-index-order filter of the board. -/
def Board.get_list_of_wanted_plots (s : Board) (pid : Nat) : List Nat :=
  (List.range s.b.length).filter fun i =>
    match s.b.get? i with
    | some (Cell.property p) =>
      decide (p.group ≠ PropertyGroup.UTILITY
        ∧ s.groupTotal p.group - s.groupOwned p.group pid = 1
        ∧ p.owner ≠ some pid)
    | _ => false

/-- `Board.get_list_of_offered_plots`: the unmortgaged single plot the player
owns in a non-utility group where they own exactly one member. Returned
`sorted`, which again equals the in-index-order filter. -/
def Board.get_list_of_offered_plots (s : Board) (pid : Nat) : List Nat :=
  (List.range s.b.length).filter fun i =>
    match s.b.get? i with
    | some (Cell.property p) =>
      decide (p.group ≠ PropertyGroup.UTILITY
        ∧ s.groupOwned p.group pid = 1
        ∧ p.owner = some pid
        ∧ p.is_mortgaged = false)
    | _ => false

/-- The candidate-collection loop of `Board.list_property_to_build`, in board
order: monopoly color-group plots of the player below improvement level 5
(the `expHouseBuildLimit` refusal is statically inert at its default 100). -/
def Board.buildCandidates (s : Board) (pid : Nat) : List BuildItem :=
  (List.range s.b.length).filterMap fun i =>
    match s.b.get? i with
    | some (Cell.property p) =>
      if p.is_monopoly = true ∧ p.owner = some pid
         ∧ p.group ≠ PropertyGroup.RAILROAD ∧ p.group ≠ PropertyGroup.UTILITY
         ∧ p.hasHouses < 5
         ∧ ¬((s.pl pid).name = "exp" ∧ expHouseBuildLimit = p.hasHouses)
      then some ⟨i, p.name, p.group, p.hasHouses, p.cost_house, p.cost_base⟩
      else none
    | _ => none

/-- The `min_in_group` dict of `list_property_to_build`: minimum improvement
level among the candidates of one group. -/
def minHousesInGroup (items : List BuildItem) (g : PropertyGroup) : Option Nat :=
  ((items.filter fun it => decide (it.group = g)).map (·.hasHouses)).min?

/-- Sort key `(x.group.value, x.hasHouses)` of the first (stable) sort. -/
def buildLe1 (a b : BuildItem) : Bool :=
  decide (a.group.value < b.group.value
    ∨ (a.group.value = b.group.value ∧ a.hasHouses ≤ b.hasHouses))

/-- Sort key `(x.cost_house, x.cost_base)` ascending (default build order). -/
def buildLeAsc (a b : BuildItem) : Bool :=
  decide (a.cost_house < b.cost_house
    ∨ (a.cost_house = b.cost_house ∧ a.cost_base ≤ b.cost_base))

/-- Sort key `(-x.cost_house, -x.cost_base)` (the `behaveBuildCheapest` order). -/
def buildLeDesc (a b : BuildItem) : Bool :=
  decide (b.cost_house < a.cost_house
    ∨ (a.cost_house = b.cost_house ∧ b.cost_base ≤ a.cost_base))

/-- Sort key `(x.hasHouses, x.cost_house, x.cost_base)` (the `expBuildThree`
order). -/
def buildLe3 (a b : BuildItem) : Bool :=
  decide (a.hasHouses < b.hasHouses
    ∨ (a.hasHouses = b.hasHouses
        ∧ (a.cost_house < b.cost_house
           ∨ (a.cost_house = b.cost_house ∧ a.cost_base ≤ b.cost_base))))

/-- `Board.list_property_to_build`. The `behaveBuildRandom` branch shuffles
with the seeded RNG; it is statically dead under the default configuration
embedded here (`behaveBuildRandom = false`), so the unshuffled list stands in
for it. The high-to-low `pop` loop that enforces uniform development equals a
filter against the group minimum. -/
def Board.list_property_to_build (s : Board) (pid : Nat) : List BuildItem :=
  let to_build_stuff := s.buildCandidates pid
  if to_build_stuff = [] then []
  else
    let s1 := sortLe buildLe1 to_build_stuff
    let s2 := if settingsAllowUnEqualDevelopment then s1
      else s1.filter fun it =>
        match minHousesInGroup to_build_stuff it.group with
        | some m => decide (it.hasHouses ≤ m)
        | none => true
    let s3 :=
      if behaveBuildRandom then s2
      else if behaveBuildCheapest then sortLe buildLeDesc s2
      else sortLe buildLeAsc s2
    let s4 := if expBuildCheapest ∧ (s.pl pid).name = "exp"
      then sortLe buildLeDesc s3 else s3
    let s5 := if expBuildExpensive ∧ (s.pl pid).name = "exp"
      then sortLe buildLeAsc s4 else s4
    if expBuildThree ∧ (s.pl pid).name = "exp" then
      let has_less_than_three := s5.any fun it => decide (it.hasHouses < 3)
      let s6 := if has_less_than_three
        then s5.filter fun it => decide (it.hasHouses < 3) else s5
      sortLe buildLe3 s6
    else s5

/-- `Board.recalculate_after_property_change`: refresh monopoly flags, then
every player's wanted/offered/build lists. The source's sequential per-player
loop reads only `b` and the player's own `name`, so the simultaneous
`mapWithIdx` update is equivalent. -/
def Board.recalculate_after_property_change (s : Board) : Board :=
  let s1 := s.check_monopolies
  { s1 with players := mapWithIdx (fun q p =>
      { p with plots_wanted := s1.get_list_of_wanted_plots q,
               plots_offered := s1.get_list_of_offered_plots q,
               plots_to_build := s1.list_property_to_build q }) s1.players }

/-- `Board.share_of_group`. The source computes `owned / total` in Python
floats; every share is a rational with numerator and denominator below the
board size, where float comparison and equality agree with exact rational
arithmetic, so the share is embedded as `Rat`. -/
def Board.share_of_group (s : Board) (g : PropertyGroup) (pid : Nat) : Rat :=
  (s.groupOwned g pid : Rat) / (s.groupTotal g : Rat)

/-- One entry of the `owned_stuff` list of
`choose_property_to_mortgage_downgrade`:
`(i, plot.cost_base, is_monopoly, share_of_group, hasHouses)`. -/
structure MortCand where
  idx : Nat
  cost_base : Int
  is_monopoly : Bool
  share : Rat
  hasHouses : Nat
deriving DecidableEq

/-- The `owned_stuff` collection loop: unmortgaged plots of the player, in
board order. -/
def Board.mortCands (s : Board) (pid : Nat) : List MortCand :=
  (List.range s.b.length).filterMap fun i =>
    match s.b.get? i with
    | some (Cell.property p) =>
      if p.is_mortgaged = false ∧ p.owner = some pid then
        some ⟨i, p.cost_base, p.is_monopoly, s.share_of_group p.group pid,
              p.hasHouses⟩
      else none
    | _ => none

/-- Strict comparison for the sort key `(share, -hasHouses)` of
`choose_property_to_mortgage_downgrade`. -/
def mortKeyLt (a b : MortCand) : Bool :=
  decide (a.share < b.share ∨ (a.share = b.share ∧ b.hasHouses < a.hasHouses))

/-- `Board.choose_property_to_mortgage_downgrade`: the source stable-sorts
`owned_stuff` by `(share, -hasHouses)` and returns the first element's index;
the fold below keeps the earliest strict minimum, which is the same element.
(The caller's `if not worst_asset` truthiness test would also treat a
returned index 0 as absent; cell 0 is GO, never a property, so `none`
models the absent case exactly.) -/
def Board.choose_property_to_mortgage_downgrade (s : Board) (pid : Nat) :
    Option Nat :=
  match s.mortCands pid with
  | [] => none
  | x :: xs =>
    some ((xs.foldl (fun best y => if mortKeyLt y best then y else best) x).idx)

/-- `Property.mortgage` (also sells one house or a whole hotel): the
downgrade/mortgage step applied to plot `i` for player `pid`. Python's
`int((cost_base // 2) * 1.1)` computes, for every magnitude on the board,
exactly `(cost_base // 2 * 11) // 10`, which is how the redemption price is
embedded. -/
def Board.mortgage (s : Board) (i : Nat) (pid : Nat) : Board :=
  let p := s.propAt i
  if p.hasHouses = 5 then
    let s := s.add_money pid (Int.fdiv (p.cost_house * 5) 2)
    let s := s.setProp i fun q => { q with hasHouses := 0 }
    { s with nHotels := s.nHotels - 1 }
  else if 0 < p.hasHouses then
    let s := s.add_money pid (Int.fdiv p.cost_house 2)
    let s := s.setProp i fun q => { q with hasHouses := q.hasHouses - 1 }
    { s with nHouses := s.nHouses - 1 }
  else
    let s := s.setProp i fun q => { q with is_mortgaged := true }
    let s := s.add_money pid (Int.fdiv p.cost_base 2)
    s.setPl pid fun q => { q with has_mortgages :=
      q.has_mortgages ++ [(i, Int.fdiv (Int.fdiv p.cost_base 2 * 11) 10)] }

/-- `Property.unmortgage`: the source's scan keeps the last ledger entry for
this plot and `remove` drops the first equal entry; an absent entry would
raise in the source (unreachable from `repay_mortgage`). -/
def Board.unmortgage (s : Board) (i : Nat) (pid : Nat) : Board :=
  match ((s.pl pid).has_mortgages.filter fun m => m.1 == i).getLast? with
  | none => s
  | some tm =>
    let s := s.setProp i fun q => { q with is_mortgaged := false }
    let s := s.take_money pid tm.2
    s.setPl pid fun q => { q with has_mortgages := q.has_mortgages.erase tm }

/-- `Player.cheapest_mortgage`: first entry with the strictly smallest price. -/
def Player.cheapest_mortgage (pl : Player) : Option (Nat × Int) :=
  pl.has_mortgages.foldl (fun cheapest m =>
    match cheapest with
    | none => some m
    | some c => if m.2 < c.2 then some m else some c) none

/-- `Player.repay_mortgage`: repay the cheapest mortgage when cash exceeds
`behaveUnmortgageCoeff` times its redemption price. -/
def Board.repay_mortgage (s : Board) (pid : Nat) : Board × Bool :=
  match (s.pl pid).cheapest_mortgage with
  | some c =>
    if c.2 * behaveUnmortgageCoeff < (s.pl pid).money
    then (s.unmortgage c.1 pid, true) else (s, false)
  | none => (s, false)

/-- `Player.net_worth`: cash plus half base cost for mortgaged plots, base
plus building value otherwise. -/
def Board.net_worth (s : Board) (pid : Nat) : Int :=
  s.b.foldl (fun acc c => match c with
    | Cell.property p =>
      if p.owner = some pid then
        if p.is_mortgaged then acc + Int.fdiv p.cost_base 2
        else acc + p.cost_base + p.cost_house * (p.hasHouses : Int)
      else acc
    | _ => acc) (s.pl pid).money

/-- `Player.wants_to_buy`. -/
def Board.wants_to_buy (s : Board) (pid : Nat) (cost : Int)
    (group : PropertyGroup) : Bool :=
  let pl := s.pl pid
  if pl.name = "exp" ∧ expRefuseProperty = some group then false
  else decide (cost + pl.cash_limit < pl.money)

/-- `Board.sell_all`: on bankruptcy, release every plot of the player to the
market (owner cleared, mortgage flag cleared). -/
def Board.sell_all (s : Board) (pid : Nat) : Board :=
  { s with b := s.b.map fun c => match c with
      | Cell.property p =>
        if p.owner = some pid
        then Cell.property { p with owner := none, is_mortgaged := false }
        else Cell.property p
      | c => c }

/-- The `while self.money < 0` loop of `Player.check_bankruptcy`, with fuel
(`none` = fuel exhausted, never returned for the bound proved below). -/
def Board.check_bankruptcy_loop : Nat → Board → Nat → Option Board
  | 0, _, _ => none
  | fuel+1, s, pid =>
    if (s.pl pid).money < 0 then
      match s.choose_property_to_mortgage_downgrade pid with
      | none =>
        some ((((s.setPl pid fun p => { p with is_bankrupt := true }).sell_all
          pid)).recalculate_after_property_change)
      | some worst =>
        Board.check_bankruptcy_loop fuel
          ((s.mortgage worst pid).recalculate_after_property_change) pid
    else some s

/-- Contribution of one cell to the liquidation measure: an unmortgaged plot
of the player can be downgraded `hasHouses` times and then mortgaged once. -/
def liqMeasureCell (pid : Nat) : Cell → Nat
  | Cell.property p =>
    if p.owner = some pid ∧ p.is_mortgaged = false then p.hasHouses + 1 else 0
  | _ => 0

/-- Total liquidation measure of a player; every loop iteration of
`check_bankruptcy` strictly decreases it. -/
def Board.liqMeasure (s : Board) (pid : Nat) : Nat :=
  (s.b.map (liqMeasureCell pid)).sum

/-- `Player.check_bankruptcy`, run with the proven-sufficient fuel bound. -/
def Board.check_bankruptcy (s : Board) (pid : Nat) : Board :=
  (Board.check_bankruptcy_loop (s.liqMeasure pid + 1) s pid).getD s

/-- `Board.choose_property_to_build` (static method): scan the cached
`plots_to_build` from the end and return the first entry whose house price
fits in `available_money`. -/
def Board.choose_property_to_build (pl : Player) (available_money : Int) :
    Option Nat :=
  (pl.plots_to_build.reverse.find? fun e =>
    decide (e.cost_house ≤ available_money)).map (·.idx)

/-- `Board.improve_property`: build one house/hotel if a candidate is
affordable and the corresponding global supply cap is not hit. -/
def Board.improve_property (s : Board) (pid : Nat) (available_money : Int) :
    Board × Bool :=
  match Board.choose_property_to_build (s.pl pid) available_money with
  | none => (s, false)
  | some i =>
    let this_is_hotel := (s.propAt i).hasHouses = 4
    if this_is_hotel ∧ s.nHotels = settingHotelLimit then (s, false)
    else if ¬this_is_hotel ∧ s.nHouses = settingHouseLimit then (s, false)
    else
      let s1 := s.setProp i fun q => { q with hasHouses := q.hasHouses + 1 }
      let s2 := if this_is_hotel
        then { s1 with nHotels := s1.nHotels + 1, nHouses := s1.nHouses - 4 }
        else { s1 with nHouses := s1.nHouses + 1 }
      let s3 := s2.take_money pid (s2.propAt i).cost_house
      (s3.setPl pid fun q =>
        { q with plots_to_build := s3.list_property_to_build pid }, true)

/-- A sequence of `improve_property` calls (player, available money), for the
"under any sequence of calls" reading of the supply-cap invariant. -/
def Board.improveRun (s : Board) (calls : List (Nat × Int)) : Board :=
  calls.foldl (fun t c => (t.improve_property c.1 c.2).1) s

/-- The body of the inner loop of `Player.two_way_trade` for one candidate
pair `(i_want, they_want)`: membership in the live offered list, the
group-of-two guard, cheap/expensive resolution, the payer's cash-floor check,
and on success the atomic money transfer + ownership swap + recalculation.
A `None` owner on the accessed plots would raise in the source (unreachable
from the loops, which check the owner / use an offered plot). -/
def Board.twoWayCandidate (s : Board) (pid : Nat) (i_want they_want : Nat) :
    Board × Bool :=
  if they_want ∈ (s.pl pid).plots_offered
     ∧ (s.propAt i_want).group ≠ (s.propAt they_want).group then
    let pair :=
      if (s.propAt i_want).cost_base < (s.propAt they_want).cost_base
      then (i_want, they_want) else (they_want, i_want)
    let cheaper_one := pair.1
    let expensive_one := pair.2
    let price_diff :=
      (s.propAt expensive_one).cost_base - (s.propAt cheaper_one).cost_base
    match (s.propAt cheaper_one).owner, (s.propAt expensive_one).owner with
    | some cOwn, some eOwn =>
      if (s.pl cOwn).cash_limit ≤ (s.pl cOwn).money - price_diff then
        let t := s.take_money cOwn price_diff
        let t1 := t.add_money eOwn price_diff
        let t2 := t1.setProp cheaper_one fun q => { q with owner := some eOwn }
        let t3 := t2.setProp expensive_one fun q => { q with owner := some cOwn }
        (t3.recalculate_after_property_change, true)
      else (s, false)
    | _, _ => (s, false)
  else (s, false)

/-- Inner loop of `two_way_trade`: iterate the snapshot of the owner's wanted
list taken when the loop started (the state threads through). -/
def Board.twoWayInner : Board → Nat → Nat → List Nat → Bool → Board × Bool
  | s, _, _, [], th => (s, th)
  | s, pid, i_want, they_want :: rest, th =>
    let r := s.twoWayCandidate pid i_want they_want
    Board.twoWayInner r.1 pid i_want rest (th || r.2)

/-- Outer loop of `two_way_trade`: iterate the snapshot of the caller's wanted
list; the owner of each wanted plot is looked up live. -/
def Board.twoWayOuter : Board → Nat → List Nat → Bool → Board × Bool
  | s, _, [], th => (s, th)
  | s, pid, i_want :: rest, th =>
    match (s.propAt i_want).owner with
    | none => Board.twoWayOuter s pid rest th
    | some oid =>
      let r := Board.twoWayInner s pid i_want
        ((s.pl oid).plots_wanted.reverse) th
      Board.twoWayOuter r.1 pid rest r.2

/-- `Player.two_way_trade`. -/
def Board.two_way_trade (s : Board) (pid : Nat) : Board × Bool :=
  Board.twoWayOuter s pid ((s.pl pid).plots_wanted.reverse) false

/-- Ghost record of one executed two-way swap: the state just before the
swap and the matched pair. -/
structure TradeRec where
  st : Board
  iw : Nat
  tw : Nat
deriving DecidableEq

/-- `twoWayCandidate` instrumented with a ghost trace of executed swaps;
the game-state component is computed exactly as in `twoWayCandidate`. -/
def Board.twoWayCandidateT (s : Board) (pid : Nat) (i_want they_want : Nat) :
    (Board × Bool) × List TradeRec :=
  if they_want ∈ (s.pl pid).plots_offered
     ∧ (s.propAt i_want).group ≠ (s.propAt they_want).group then
    let pair :=
      if (s.propAt i_want).cost_base < (s.propAt they_want).cost_base
      then (i_want, they_want) else (they_want, i_want)
    let cheaper_one := pair.1
    let expensive_one := pair.2
    let price_diff :=
      (s.propAt expensive_one).cost_base - (s.propAt cheaper_one).cost_base
    match (s.propAt cheaper_one).owner, (s.propAt expensive_one).owner with
    | some cOwn, some eOwn =>
      if (s.pl cOwn).cash_limit ≤ (s.pl cOwn).money - price_diff then
        let t := s.take_money cOwn price_diff
        let t1 := t.add_money eOwn price_diff
        let t2 := t1.setProp cheaper_one fun q => { q with owner := some eOwn }
        let t3 := t2.setProp expensive_one fun q => { q with owner := some cOwn }
        ((t3.recalculate_after_property_change, true),
         [{ st := s, iw := i_want, tw := they_want }])
      else ((s, false), [])
    | _, _ => ((s, false), [])
  else ((s, false), [])

/-- Traced inner loop of `two_way_trade`. -/
def Board.twoWayInnerT :
    Board → Nat → Nat → List Nat → Bool → (Board × Bool) × List TradeRec
  | s, _, _, [], th => ((s, th), [])
  | s, pid, i_want, they_want :: rest, th =>
    let r := s.twoWayCandidateT pid i_want they_want
    let r2 := Board.twoWayInnerT r.1.1 pid i_want rest (th || r.1.2)
    (r2.1, r.2 ++ r2.2)

/-- Traced outer loop of `two_way_trade`. -/
def Board.twoWayOuterT :
    Board → Nat → List Nat → Bool → (Board × Bool) × List TradeRec
  | s, _, [], th => ((s, th), [])
  | s, pid, i_want :: rest, th =>
    match (s.propAt i_want).owner with
    | none => Board.twoWayOuterT s pid rest th
    | some oid =>
      let r := Board.twoWayInnerT s pid i_want
        ((s.pl oid).plots_wanted.reverse) th
      let r2 := Board.twoWayOuterT r.1.1 pid rest r.1.2
      (r2.1, r.2 ++ r2.2)

/-- `Player.two_way_trade` with the ghost trace of executed swaps. -/
def Board.two_way_tradeT (s : Board) (pid : Nat) :
    (Board × Bool) × List TradeRec :=
  Board.twoWayOuterT s pid ((s.pl pid).plots_wanted.reverse) false

/-- The body of the innermost loop of `Player.three_way_trade` for one
candidate triple: membership of `wanted3` in the live offered list, the
three-distinct-groups guard (`len({g1,g2,g3}) < 3` means some pair of groups
coincides), the three strict cash-floor checks, and on success the ownership
rotation plus the three payment legs and recalculation. -/
def Board.threeWayCandidate (s : Board) (pid o1 o2 : Nat)
    (wanted1 wanted2 wanted3 : Nat) : Board × Bool :=
  if wanted3 ∈ (s.pl pid).plots_offered then
    if (s.propAt wanted1).group = (s.propAt wanted2).group
       ∨ (s.propAt wanted1).group = (s.propAt wanted3).group
       ∨ (s.propAt wanted2).group = (s.propAt wanted3).group then (s, false)
    else
      let topay1 :=
        (s.propAt wanted1).cost_base - (s.propAt wanted3).cost_base
      let topay2 :=
        (s.propAt wanted2).cost_base - (s.propAt wanted1).cost_base
      let topay3 :=
        (s.propAt wanted3).cost_base - (s.propAt wanted2).cost_base
      if (s.pl pid).cash_limit < (s.pl pid).money - topay1
         ∧ (s.pl o1).cash_limit < (s.pl o1).money - topay2
         ∧ (s.pl o2).cash_limit < (s.pl o2).money - topay3 then
        let t := s.setProp wanted1 fun q => { q with owner := some pid }
        let t1 := t.setProp wanted2 fun q => { q with owner := some o1 }
        let t2 := t1.setProp wanted3 fun q => { q with owner := some o2 }
        let t3 := t2.take_money pid topay1
        let t4 := t3.take_money o1 topay2
        let t5 := t4.take_money o2 topay3
        (t5.recalculate_after_property_change, true)
      else (s, false)
  else (s, false)

/-- Innermost loop of `three_way_trade` (over the second owner's wanted-list
snapshot). -/
def Board.threeWayLoop3 :
    Board → Nat → Nat → Nat → Nat → Nat → List Nat → Bool → Board × Bool
  | s, _, _, _, _, _, [], th => (s, th)
  | s, pid, o1, o2, w1, w2, w3 :: rest, th =>
    let r := s.threeWayCandidate pid o1 o2 w1 w2 w3
    Board.threeWayLoop3 r.1 pid o1 o2 w1 w2 rest (th || r.2)

/-- Middle loop of `three_way_trade` (over the first owner's wanted-list
snapshot; each wanted plot's owner is looked up live and skipped if absent). -/
def Board.threeWayLoop2 :
    Board → Nat → Nat → Nat → List Nat → Bool → Board × Bool
  | s, _, _, _, [], th => (s, th)
  | s, pid, o1, w1, w2 :: rest, th =>
    match (s.propAt w2).owner with
    | none => Board.threeWayLoop2 s pid o1 w1 rest th
    | some o2 =>
      let r := Board.threeWayLoop3 s pid o1 o2 w1 w2
        ((s.pl o2).plots_wanted.reverse) th
      Board.threeWayLoop2 r.1 pid o1 w1 rest r.2

/-- Outer loop of `three_way_trade` (over the caller's wanted-list snapshot). -/
def Board.threeWayLoop1 : Board → Nat → List Nat → Bool → Board × Bool
  | s, _, [], th => (s, th)
  | s, pid, w1 :: rest, th =>
    match (s.propAt w1).owner with
    | none => Board.threeWayLoop1 s pid rest th
    | some o1 =>
      let r := Board.threeWayLoop2 s pid o1 w1
        ((s.pl o1).plots_wanted.reverse) th
      Board.threeWayLoop1 r.1 pid rest r.2

/-- `Player.three_way_trade`. The source never returns its local
`trade_happened` flag (the method returns `None`), so only the state is kept. -/
def Board.three_way_trade (s : Board) (pid : Nat) : Board :=
  (Board.threeWayLoop1 s pid ((s.pl pid).plots_wanted.reverse) false).1

/-- `Player.make_repairs` (Chance/Community repair cards). -/
def Board.make_repairs (s : Board) (pid : Nat) (repairtype : String) : Board :=
  let per : Int × Int := if repairtype = "chance" then (25, 100) else (40, 115)
  let repair_cost := s.b.foldl (fun acc c => match c with
    | Cell.property p =>
      if p.owner = some pid then
        if p.hasHouses = 5 then acc + per.2
        else acc + (p.hasHouses : Int) * per.1
      else acc
    | _ => acc) 0
  s.take_money pid repair_cost

/-- `Property.action`: landing on a property — nothing if own or mortgaged,
optional purchase if unowned, rent transfer otherwise. -/
def Board.property_action (s : Board) (pid : Nat) (i : Nat) (rent : Int) :
    Board :=
  let p := s.propAt i
  if p.owner = some pid ∨ p.is_mortgaged then s
  else match p.owner with
    | none =>
      if s.wants_to_buy pid p.cost_base p.group then
        let t := s.take_money pid p.cost_base
        let t1 := t.setProp i fun q => { q with owner := some pid }
        t1.recalculate_after_property_change
      else s
    | some oid => (s.take_money pid rent).add_money oid rent

/-- `Chance.action`: draw the front card, apply its effect (several cards
re-dispatch the cell action at the new position through `recur`), and requeue
the card unless it is the jail-free card. An empty deck would raise in the
source and cannot occur (at most the two jail-free cards leave circulation). -/
def Board.chanceAction (recur : Board → Nat → Nat → String → Board)
    (s : Board) (pid : Nat) : Board :=
  match s.chanceCards with
  | [] => s
  | chance_card :: deck =>
    let s0 : Board := { s with chanceCards := deck }
    let s1 : Board :=
      match chance_card with
      | 0 =>
        let t := if 11 ≤ (s0.pl pid).position
          then s0.add_money pid settingsSalary else s0
        let t1 := t.setPl pid fun p => { p with position := 11 }
        recur t1 pid 11 ""
      | 1 => s0.setPl pid fun p => { p with has_jail_card_chance := true }
      | 2 =>
        let t := if 5 ≤ (s0.pl pid).position
          then s0.add_money pid settingsSalary else s0
        let t1 := t.setPl pid fun p => { p with position := 5 }
        recur t1 pid 5 ""
      | 3 =>
        let newpos := (((s0.pl pid).position + 4) / 10 * 10 + 5) % 40
        let t := s0.setPl pid fun p => { p with position := newpos }
        recur t pid newpos "from_chance"
      | 4 =>
        let t := if 24 ≤ (s0.pl pid).position
          then s0.add_money pid settingsSalary else s0
        let t1 := t.setPl pid fun p => { p with position := 24 }
        recur t1 pid 24 ""
      | 5 => s0.make_repairs pid "chance"
      | 6 =>
        let t := s0.add_money pid settingsSalary
        t.setPl pid fun p => { p with position := 0 }
      | 7 => s0.add_money pid 50
      | 8 => s0.take_money pid 15
      | 9 =>
        let pos := (s0.pl pid).position
        let newpos := if 12 < pos ∧ pos ≤ 28 then 28 else 12
        let t := s0.setPl pid fun p => { p with position := newpos }
        recur t pid newpos "from_chance"
      | 10 =>
        (s0.move_to pid 10).setPl pid fun p => { p with in_jail := true }
      | 11 =>
        (List.range s0.players.length).foldl (fun t q =>
          if q ≠ pid ∧ (t.pl q).is_bankrupt = false
          then (t.take_money pid 50).add_money q 50 else t) s0
      | 12 =>
        let t := s0.setPl pid fun p => { p with position := 39 }
        recur t pid 39 ""
      | 13 =>
        let newpos := (s0.pl pid).position - 3
        let t := s0.setPl pid fun p => { p with position := newpos }
        recur t pid newpos ""
      | 14 => s0.add_money pid 150
      | 15 => s0.add_money pid 100
      | _ => s0
    if chance_card ≠ 1
    then { s1 with chanceCards := s1.chanceCards ++ [chance_card] } else s1

/-- `Community.action`: draw the front card, apply its effect (no community
card re-dispatches a cell action), requeue unless it is the jail-free card. -/
def Board.communityAction (s : Board) (pid : Nat) : Board :=
  match s.communityCards with
  | [] => s
  | community_card :: deck =>
    let s0 : Board := { s with communityCards := deck }
    let s1 : Board :=
      match community_card with
      | 0 => s0.take_money pid 150
      | 1 =>
        (List.range s0.players.length).foldl (fun t q =>
          if q ≠ pid ∧ (t.pl q).is_bankrupt = false
          then (((t.add_money pid 50).take_money q 50).check_bankruptcy q)
          else t) s0
      | 2 => s0.add_money pid 100
      | 3 => s0.take_money pid 100
      | 4 => s0.add_money pid 20
      | 5 =>
        (s0.move_to pid 10).setPl pid fun p => { p with in_jail := true }
      | 6 => s0.setPl pid fun p => { p with has_jail_card_community := true }
      | 7 => s0.add_money pid 10
      | 8 => s0.make_repairs pid "community"
      | 9 => s0.add_money pid 200
      | 10 =>
        let t := s0.add_money pid settingsSalary
        t.setPl pid fun p => { p with position := 0 }
      | 11 => s0.add_money pid 100
      | 12 => s0.take_money pid 50
      | 13 => s0.add_money pid 45
      | 14 => s0.add_money pid 25
      | 15 => s0.add_money pid 100
      | _ => s0
    if community_card ≠ 6
    then { s1 with communityCards := s1.communityCards ++ [community_card] }
    else s1

/-- Fueled `Board.action` (cell dispatch); the fuel pays for the chance-card
relocations that re-dispatch the action. On the shipped board these chain at
most Chance → back-3-spaces → Community, so any fuel ≥ 3 computes exactly
the source's recursion. -/
def Board.actionF : Nat → Board → Nat → Nat → String → Board
  | 0, s, _, _, _ => s
  | fuel+1, s, pid, position, special =>
    match s.b.get? position with
    | some (Cell.property _) =>
      let rent := s.calculate_rent position (s.pl pid).dice special
      s.property_action pid position rent
    | some Cell.chance => Board.chanceAction (Board.actionF fuel) s pid
    | some Cell.community => s.communityAction pid
    | some Cell.propertyTax =>
      let to_pay := min settingsPropertyTax (Int.fdiv (s.net_worth pid) 10)
      s.take_money pid to_pay
    | some Cell.luxuryTax => s.take_money pid settingsLuxuryTax
    | some Cell.goToJail =>
      (s.move_to pid 10).setPl pid fun p => { p with in_jail := true }
    | _ => s

/-- `Board.action` with a fuel comfortably above the maximal card-relocation
chain depth. -/
def Board.action (s : Board) (pid : Nat) (position : Nat) (special : String) :
    Board :=
  Board.actionF 8 s pid position special

/-- The `while self.repay_mortgage(): board.recalculate...` loop of
`make_a_move`; every successful repayment removes one ledger entry, so the
entry count bounds the iterations. -/
def Board.repayLoop : Nat → Board → Nat → Board
  | 0, s, _ => s
  | fuel+1, s, pid =>
    let r := s.repay_mortgage pid
    if r.2 then Board.repayLoop fuel r.1.recalculate_after_property_change pid
    else r.1

/-- The `while board.improve_property(...)` loop of `make_a_move`. -/
def Board.buildLoop : Nat → Board → Nat → Board
  | 0, s, _ => s
  | fuel+1, s, pid =>
    let r := s.improve_property pid ((s.pl pid).money - (s.pl pid).cash_limit)
    if r.2 then Board.buildLoop fuel r.1 pid else r.1

/-- Fuel bound for the build loop: every successful build raises one plot's
improvement level by one, so total remaining headroom bounds the iterations. -/
def Board.buildFuel (s : Board) : Nat :=
  (s.b.map fun c => match c with
    | Cell.property p => 5 - p.hasHouses
    | _ => 0).sum + 1

/-- Movement + cell action + bankruptcy check tail of `Player.make_a_move`
(the code below the jail block): clear `in_jail`, advance by the dice total,
wrap past GO with salary, dispatch the cell action, check bankruptcy. -/
def Board.moveAndAct (s : Board) (pid : Nat) (d1 d2 : Nat) (go_again : Bool) :
    Board × Bool :=
  let t := s.setPl pid fun p => { p with in_jail := false }
  let t1 := t.setPl pid fun p => { p with position := p.position + d1 + d2 }
  let t2 :=
    if 40 ≤ (t1.pl pid).position then
      (t1.setPl pid fun p => { p with position := p.position - 40 }).add_money
        pid settingsSalary
    else t1
  let t3 := t2.action pid (t2.pl pid).position ""
  let t4 := t3.check_bankruptcy pid
  (t4, go_again)

/-- The jail block of `Player.make_a_move`: spend a jail card (chance deck
first), else sit out / pay the fine on the third day, else leave on doubles
(forfeiting the extra turn). -/
def Board.jailAndMove (s : Board) (pid : Nat) (d1 d2 : Nat)
    (go_again : Bool) : Board × Bool :=
  if (s.pl pid).in_jail then
    if (s.pl pid).has_jail_card_chance then
      let t := s.setPl pid fun p => { p with has_jail_card_chance := false }
      let t1 := { t with chanceCards := t.chanceCards ++ [1] }
      t1.moveAndAct pid d1 d2 go_again
    else if (s.pl pid).has_jail_card_community then
      let t := s.setPl pid fun p => { p with has_jail_card_community := false }
      let t1 := { t with communityCards := t.communityCards ++ [6] }
      t1.moveAndAct pid d1 d2 go_again
    else if d1 ≠ d2 then
      let t := s.setPl pid fun p => { p with days_in_jail := p.days_in_jail + 1 }
      if (t.pl pid).days_in_jail < 3 then (t, false)
      else
        let t1 := t.take_money pid settingJailFine
        let t2 := t1.setPl pid fun p => { p with days_in_jail := 0 }
        t2.moveAndAct pid d1 d2 go_again
    else
      let t := s.setPl pid fun p => { p with days_in_jail := 0 }
      t.moveAndAct pid d1 d2 false
  else s.moveAndAct pid d1 d2 go_again

/-- `Player.make_a_move` with the dice roll passed in explicitly (the source
draws it from the seeded RNG). The returned flag is the "go again" result;
the source returns `None` (falsy) for a bankrupt player. -/
def Board.make_a_move (s : Board) (pid : Nat) (dice1 dice2 : Nat) :
    Board × Bool :=
  if (s.pl pid).is_bankrupt then (s, false)
  else
    let s1 := Board.repayLoop ((s.pl pid).has_mortgages.length + 1) s pid
    let s2 := Board.buildLoop s1.buildFuel s1 pid
    let s3 :=
      if expRefuseTrade ∧ (s2.pl pid).name = "exp" then s2
      else if behaveDoTrade then
        let r := s2.two_way_trade pid
        if r.2 = false ∧ 3 ≤ n_players ∧ behaveDoThreeWayTrade
        then r.1.three_way_trade pid
        else r.1
      else s2
    let s4 := s3.setPl pid fun p => { p with dice := (dice1, dice2) }
    if dice1 = dice2 ∧ (s4.pl pid).in_jail = false then
      let s5 := s4.setPl pid fun p =>
        { p with consequent_doubles := p.consequent_doubles + 1 }
      if (s5.pl pid).consequent_doubles = 3 then
        let s6 := s5.setPl pid fun p => { p with in_jail := true }
        let s7 := s6.move_to pid 10
        (s7.setPl pid fun p => { p with consequent_doubles := 0 }, false)
      else s5.jailAndMove pid dice1 dice2 true
    else
      let s5 := s4.setPl pid fun p => { p with consequent_doubles := 0 }
      s5.jailAndMove pid dice1 dice2 false

/-- The board layout of `Board.__init__` (40 cells with the source's data —
including its literal `100` in Pennsylvania Avenue's rent schedule). The card
decks are shuffled by the seeded RNG in the source; deck order is data here
and concrete scenarios fix it explicitly. -/
def initBoard (players : List Player) : Board :=
  { b := [ Cell.go,
      Cell.property (mkProperty "A1 Mediterranean Avenue" 60 2 50
        [10, 30, 90, 160, 250] PropertyGroup.BROWN),
      Cell.community,
      Cell.property (mkProperty "A2 Baltic Avenue" 60 4 50
        [20, 60, 180, 320, 450] PropertyGroup.BROWN),
      Cell.propertyTax,
      Cell.property (mkProperty "R1 Reading railroad" 200 0 0
        [0, 0, 0, 0, 0] PropertyGroup.RAILROAD),
      Cell.property (mkProperty "B1 Oriental Avenue" 100 6 50
        [30, 90, 270, 400, 550] PropertyGroup.LIGHT_BLUE),
      Cell.chance,
      Cell.property (mkProperty "B2 Vermont Avenue" 100 6 50
        [30, 90, 270, 400, 550] PropertyGroup.LIGHT_BLUE),
      Cell.property (mkProperty "B3 Connecticut Avenue" 120 8 50
        [40, 100, 300, 450, 600] PropertyGroup.LIGHT_BLUE),
      Cell.prison,
      Cell.property (mkProperty "C1 St.Charles Place" 140 10 100
        [50, 150, 450, 625, 750] PropertyGroup.PINK),
      Cell.property (mkProperty "U1 Electric Company" 150 0 0
        [0, 0, 0, 0, 0] PropertyGroup.UTILITY),
      Cell.property (mkProperty "C2 States Avenue" 140 10 100
        [50, 150, 450, 625, 750] PropertyGroup.PINK),
      Cell.property (mkProperty "C3 Virginia Avenue" 160 12 100
        [60, 180, 500, 700, 900] PropertyGroup.PINK),
      Cell.property (mkProperty "R2 Pennsylvania Railroad" 200 0 0
        [0, 0, 0, 0, 0] PropertyGroup.RAILROAD),
      Cell.property (mkProperty "D1 St.James Place" 180 14 100
        [70, 200, 550, 700, 950] PropertyGroup.ORANGE),
      Cell.community,
      Cell.property (mkProperty "D2 Tennessee Avenue" 180 14 100
        [70, 200, 550, 700, 950] PropertyGroup.ORANGE),
      Cell.property (mkProperty "D3 New York Avenue" 200 16 100
        [80, 220, 600, 800, 1000] PropertyGroup.ORANGE),
      Cell.freeParking,
      Cell.property (mkProperty "E1 Kentucky Avenue" 220 18 150
        [90, 250, 700, 875, 1050] PropertyGroup.RED),
      Cell.chance,
      Cell.property (mkProperty "E2 Indiana Avenue" 220 18 150
        [90, 250, 700, 875, 1050] PropertyGroup.RED),
      Cell.property (mkProperty "E3 Illinois Avenue" 240 20 150
        [100, 300, 750, 925, 1100] PropertyGroup.RED),
      Cell.property (mkProperty "R3 BnO Railroad" 200 0 0
        [0, 0, 0, 0, 0] PropertyGroup.RAILROAD),
      Cell.property (mkProperty "F1 Atlantic Avenue" 260 22 150
        [110, 330, 800, 975, 1150] PropertyGroup.YELLOW),
      Cell.property (mkProperty "F2 Ventinor Avenue" 260 22 150
        [110, 330, 800, 975, 1150] PropertyGroup.YELLOW),
      Cell.property (mkProperty "U2 Waterworks" 150 0 0
        [0, 0, 0, 0, 0] PropertyGroup.UTILITY),
      Cell.property (mkProperty "F3 Martin Gardens" 280 24 150
        [120, 360, 850, 1025, 1200] PropertyGroup.YELLOW),
      Cell.goToJail,
      Cell.property (mkProperty "G1 Pacific Avenue" 300 26 200
        [130, 390, 900, 1100, 1275] PropertyGroup.GREEN),
      Cell.property (mkProperty "G2 North Carolina Avenue" 300 26 200
        [130, 390, 900, 1100, 1275] PropertyGroup.GREEN),
      Cell.community,
      Cell.property (mkProperty "G3 Pennsylvania Avenue" 320 28 200
        [150, 450, 100, 1200, 1400] PropertyGroup.GREEN),
      Cell.property (mkProperty "R4 Short Line" 200 0 0
        [0, 0, 0, 0, 0] PropertyGroup.RAILROAD),
      Cell.chance,
      Cell.property (mkProperty "H1 Park Place" 350 35 200
        [175, 500, 1100, 1300, 1500] PropertyGroup.INDIGO),
      Cell.luxuryTax,
      Cell.property (mkProperty "H2 Boardwalk" 400 50 200
        [200, 600, 1400, 1700, 2000] PropertyGroup.INDIGO) ],
    players := players, nHouses := 0, nHotels := 0,
    chanceCards := List.range 16, communityCards := List.range 16 }

theorem pl_eq_of_get? (s : Board) (pid : Nat) (pl : Player)
    (h : s.players.get? pid = some pl) : s.pl pid = pl := by
  simp [Board.pl, List.getD_eq_getElem?_getD, ← List.get?_eq_getElem?, h]

theorem pl_setPl_self (s : Board) (pid : Nat) (f : Player → Player)
    (pl : Player) (h : s.players.get? pid = some pl) :
    (s.setPl pid f).pl pid = f pl := by
  have h2 := modifyIdx_get?_self s.players pid f pl h
  simp [Board.setPl, Board.pl, List.getD_eq_getElem?_getD,
    ← List.get?_eq_getElem?, h2]

theorem pl_setPl_other (s : Board) (pid q : Nat) (f : Player → Player)
    (h : pid ≠ q) : (s.setPl pid f).pl q = s.pl q := by
  have h2 := modifyIdx_get?_ne s.players pid q f h
  simp [Board.setPl, Board.pl, List.getD_eq_getElem?_getD,
    ← List.get?_eq_getElem?, h2]

theorem b_setPl (s : Board) (pid : Nat) (f : Player → Player) :
    (s.setPl pid f).b = s.b := rfl

theorem players_setProp (s : Board) (i : Nat) (f : Property → Property) :
    (s.setProp i f).players = s.players := rfl

theorem propAt_of_get? (s : Board) (i : Nat) (p : Property)
    (h : s.b.get? i = some (Cell.property p)) : s.propAt i = p := by
  unfold Board.propAt
  rw [h]

theorem b_get?_setProp_self (s : Board) (i : Nat) (f : Property → Property)
    (p : Property) (h : s.b.get? i = some (Cell.property p)) :
    (s.setProp i f).b.get? i = some (Cell.property (f p)) := by
  have := modifyIdx_get?_self s.b i
    (fun c => match c with
      | Cell.property q => Cell.property (f q)
      | c => c) (Cell.property p) h
  simpa [Board.setProp] using this

theorem b_get?_setProp_other (s : Board) (i j : Nat) (f : Property → Property)
    (h : i ≠ j) : (s.setProp i f).b.get? j = s.b.get? j := by
  simpa [Board.setProp] using modifyIdx_get?_ne s.b i j _ h

theorem nHouses_take_money (s : Board) (pid : Nat) (a : Int) :
    (s.take_money pid a).nHouses = s.nHouses := rfl

theorem nHotels_take_money (s : Board) (pid : Nat) (a : Int) :
    (s.take_money pid a).nHotels = s.nHotels := rfl

theorem nHouses_setPl (s : Board) (pid : Nat) (f : Player → Player) :
    (s.setPl pid f).nHouses = s.nHouses := rfl

theorem nHotels_setPl (s : Board) (pid : Nat) (f : Player → Player) :
    (s.setPl pid f).nHotels = s.nHotels := rfl

theorem nHouses_setProp (s : Board) (i : Nat) (f : Property → Property) :
    (s.setProp i f).nHouses = s.nHouses := rfl

theorem nHotels_setProp (s : Board) (i : Nat) (f : Property → Property) :
    (s.setProp i f).nHotels = s.nHotels := rfl

theorem mapWithIdx_go_get? (f : Nat → α → β) (l : List α) (j i : Nat) :
    (mapWithIdx.go f j l).get? i = (l.get? i).map (f (j + i)) := by
  induction l generalizing j i with
  | nil => simp [mapWithIdx.go]
  | cons a as ih =>
    cases i with
    | zero => simp [mapWithIdx.go]
    | succ n =>
      have ih1 := ih (j+1) n
      have hjn : j + 1 + n = j + (n + 1) := by omega
      simp only [mapWithIdx.go, List.get?_cons_succ]
      rw [ih1, hjn]

theorem mapWithIdx_get? (f : Nat → α → β) (l : List α) (i : Nat) :
    (mapWithIdx f l).get? i = (l.get? i).map (f i) := by
  simpa using mapWithIdx_go_get? f l 0 i

/-- C1: for every board position holding an ordinary (non-railroad,
non-utility) property and every dice pair, `calculate_rent` returns
`rent_base` when the property is unimproved and not a monopoly, exactly
`2 * rent_base` when it is unimproved and a monopoly, and
`rent_house[hasHouses-1]` (ignoring monopoly status) when `hasHouses > 0`. -/
theorem claim1_calculate_rent_ordinary
    (s : Board) (position : Nat) (p : Property) (dice : Nat × Nat)
    (special : String)
    (hp : s.b.get? position = some (Cell.property p))
    (hr : p.group ≠ PropertyGroup.RAILROAD)
    (hu : p.group ≠ PropertyGroup.UTILITY) :
    (p.hasHouses = 0 → p.is_monopoly = false →
        s.calculate_rent position dice special = p.rent_base)
    ∧ (p.hasHouses = 0 → p.is_monopoly = true →
        s.calculate_rent position dice special = 2 * p.rent_base)
    ∧ (0 < p.hasHouses →
        s.calculate_rent position dice special
          = p.rent_house.getD (p.hasHouses - 1) 0) := by
  refine ⟨fun h0 hm => ?_, fun h0 hm => ?_, fun hpos => ?_⟩ <;>
    simp [Board.calculate_rent, hp, hr, hu] <;> simp_all

/-- Concrete input for the C1 witness: Baltic Avenue, owned and part of a
monopoly, on a two-cell board. -/
def c1prop : Property :=
  { mkProperty "A2 Baltic Avenue" 60 4 50 [20, 60, 180, 320, 450]
      PropertyGroup.BROWN with owner := some 0, is_monopoly := true }

/-- Board state for the C1 witness. -/
def c1state : Board :=
  { b := [Cell.go, Cell.property c1prop], players := [], nHouses := 0,
    nHotels := 0, chanceCards := [], communityCards := [] }

/-- Witness for C1 at a concrete input: an unimproved monopoly's rent doubles
to `8 = 2 * 4`. -/
theorem claim1_witness : c1state.calculate_rent 1 (3, 4) "" = 8 := by
  have h := claim1_calculate_rent_ordinary c1state 1 c1prop (3, 4) ""
    (by rfl) (by decide) (by decide)
  simpa [c1prop, mkProperty] using h.2.1 rfl rfl

/-- Concrete input for C8: Boardwalk carrying a hotel, owned by player 0. -/
def c8prop : Property :=
  { mkProperty "H2 Boardwalk" 400 50 200 [200, 600, 1400, 1700, 2000]
      PropertyGroup.INDIGO with owner := some 0, hasHouses := 5 }

/-- Board state for C8: the shipped board with a hotel on Boardwalk. -/
def c8state : Board :=
  { initBoard [mkPlayer "p0" 1500] with
      b := modifyIdx (initBoard []).b 39 fun _ => Cell.property c8prop,
      nHotels := 1 }

/-- C8 counterexample: a liquidation step on a hotel does NOT sell exactly one
improvement level — it clears the whole hotel (improvement level 5 → 0, not
5 → 4), crediting `2.5 × cost_house = 500`. -/
theorem claim8_counterexample :
    ((c8state.mortgage 39 0).propAt 39).hasHouses = 0
    ∧ ((c8state.mortgage 39 0).propAt 39).hasHouses ≠ 4
    ∧ ((c8state.mortgage 39 0).pl 0).money = 1500 + 500
    ∧ (c8state.mortgage 39 0).nHotels = 0 := by
  refine ⟨by decide, by decide, by decide, by decide⟩

/-- C8 (amended): one liquidation step on plot `i` sells the ENTIRE hotel
(level 5 → 0) crediting `⌊2.5 × cost_house⌋` and freeing one hotel slot, or
sells exactly one house (level `h → h-1`) crediting `⌊0.5 × cost_house⌋` and
freeing one house slot, or — if the asset is unimproved — mortgages it
crediting `⌊cost_base / 2⌋`, setting `is_mortgaged` and recording the
redemption price `⌊1.1 × ⌊cost_base / 2⌋⌋` in the ledger. -/
theorem claim8_amended_liquidation_step (s : Board) (i pid : Nat) (p : Property)
    (hp : s.b.get? i = some (Cell.property p)) (pl : Player)
    (hq : s.players.get? pid = some pl) :
    (p.hasHouses = 5 →
        (s.mortgage i pid).b.get? i
          = some (Cell.property { p with hasHouses := 0 })
      ∧ ((s.mortgage i pid).pl pid).money
          = pl.money + Int.fdiv (p.cost_house * 5) 2
      ∧ (s.mortgage i pid).nHotels = s.nHotels - 1
      ∧ (s.mortgage i pid).nHouses = s.nHouses)
  ∧ (p.hasHouses ≠ 5 → 0 < p.hasHouses →
        (s.mortgage i pid).b.get? i
          = some (Cell.property { p with hasHouses := p.hasHouses - 1 })
      ∧ ((s.mortgage i pid).pl pid).money = pl.money + Int.fdiv p.cost_house 2
      ∧ (s.mortgage i pid).nHouses = s.nHouses - 1
      ∧ (s.mortgage i pid).nHotels = s.nHotels)
  ∧ (p.hasHouses = 0 →
        (s.mortgage i pid).b.get? i
          = some (Cell.property { p with is_mortgaged := true })
      ∧ ((s.mortgage i pid).pl pid).money = pl.money + Int.fdiv p.cost_base 2
      ∧ ((s.mortgage i pid).pl pid).has_mortgages
          = pl.has_mortgages
            ++ [(i, Int.fdiv (Int.fdiv p.cost_base 2 * 11) 10)]) := by
  have hpA := propAt_of_get? s i p hp
  refine ⟨fun h5 => ?_, fun hn5 hpos => ?_, fun h0 => ?_⟩
  · have hcond : ¬ (p.hasHouses = 0) := by omega
    unfold Board.mortgage
    rw [hpA, if_pos h5]
    have hget : ((s.add_money pid (Int.fdiv (p.cost_house * 5) 2)).setProp i
        fun q => { q with hasHouses := 0 }).b.get? i
          = some (Cell.property { p with hasHouses := 0 }) := by
      exact b_get?_setProp_self _ i _ p hp
    refine ⟨hget, ?_, rfl, rfl⟩
    have hmoney : ((s.add_money pid (Int.fdiv (p.cost_house * 5) 2)).pl pid).money
        = pl.money + Int.fdiv (p.cost_house * 5) 2 := by
      rw [Board.add_money, pl_setPl_self s pid _ pl hq]
    exact hmoney
  · unfold Board.mortgage
    rw [hpA, if_neg hn5, if_pos hpos]
    have hget : ((s.add_money pid (Int.fdiv p.cost_house 2)).setProp i
        fun q => { q with hasHouses := q.hasHouses - 1 }).b.get? i
          = some (Cell.property { p with hasHouses := p.hasHouses - 1 }) := by
      exact b_get?_setProp_self _ i _ p hp
    refine ⟨hget, ?_, rfl, rfl⟩
    have hmoney : ((s.add_money pid (Int.fdiv p.cost_house 2)).pl pid).money
        = pl.money + Int.fdiv p.cost_house 2 := by
      rw [Board.add_money, pl_setPl_self s pid _ pl hq]
    exact hmoney
  · have hn5 : ¬ (p.hasHouses = 5) := by omega
    have hnpos : ¬ (0 < p.hasHouses) := by omega
    unfold Board.mortgage
    rw [hpA, if_neg hn5, if_neg hnpos]
    have hget : ((s.setProp i fun q => { q with is_mortgaged := true }).add_money
        pid (Int.fdiv p.cost_base 2)).b.get? i
          = some (Cell.property { p with is_mortgaged := true }) := by
      exact b_get?_setProp_self s i _ p hp
    have hplayers : ((s.setProp i fun q => { q with is_mortgaged := true }).add_money
        pid (Int.fdiv p.cost_base 2)).players.get? pid
          = some { pl with money := pl.money + Int.fdiv p.cost_base 2 } := by
      have : (s.setProp i fun q => { q with is_mortgaged := true }).players.get? pid
          = some pl := hq
      exact modifyIdx_get?_self _ pid _ pl this
    refine ⟨hget, ?_, ?_⟩
    · have hmoney : ((((s.setProp i fun q => { q with is_mortgaged := true
          }).add_money pid (Int.fdiv p.cost_base 2)).setPl pid fun q =>
          { q with has_mortgages := q.has_mortgages
              ++ [(i, Int.fdiv (Int.fdiv p.cost_base 2 * 11) 10)] }).pl
            pid).money = pl.money + Int.fdiv p.cost_base 2 := by
        rw [pl_setPl_self _ pid _ _ hplayers]
      exact hmoney
    · have hled : ((((s.setProp i fun q => { q with is_mortgaged := true
          }).add_money pid (Int.fdiv p.cost_base 2)).setPl pid fun q =>
          { q with has_mortgages := q.has_mortgages
              ++ [(i, Int.fdiv (Int.fdiv p.cost_base 2 * 11) 10)] }).pl
            pid).has_mortgages = pl.has_mortgages
              ++ [(i, Int.fdiv (Int.fdiv p.cost_base 2 * 11) 10)] := by
        rw [pl_setPl_self _ pid _ _ hplayers]
      exact hled

/-- Witness for the amended C8 at the hotel on Boardwalk: the step credits
`⌊2.5 × 200⌋ = 500` and frees one hotel slot. -/
theorem claim8_witness :
    ((c8state.mortgage 39 0).pl 0).money
      = (mkPlayer "p0" 1500).money + Int.fdiv (c8prop.cost_house * 5) 2
    ∧ (c8state.mortgage 39 0).nHotels = c8state.nHotels - 1 := by
  have h := (claim8_amended_liquidation_step c8state 39 0 c8prop (by decide)
      (mkPlayer "p0" 1500) (by decide)).1 (by decide)
  exact ⟨h.2.1, h.2.2.1⟩

theorem improve_property_inv (s : Board) (pid : Nat) (avail : Int)
    (h1 : s.nHouses ≤ settingHouseLimit) (h2 : s.nHotels ≤ settingHotelLimit) :
    (s.improve_property pid avail).1.nHouses ≤ settingHouseLimit
    ∧ (s.improve_property pid avail).1.nHotels ≤ settingHotelLimit := by
  unfold Board.improve_property
  cases hch : Board.choose_property_to_build (s.pl pid) avail with
  | none => exact ⟨h1, h2⟩
  | some i =>
    by_cases hh : (s.propAt i).hasHouses = 4
    · by_cases hcap : s.nHotels = settingHotelLimit
      · simp only [hh, hcap]
        simp
        exact ⟨h1, h2⟩
      · simp only [hh, hcap]
        simp [nHouses_take_money, nHotels_take_money, nHouses_setPl,
          nHotels_setPl, nHouses_setProp, nHotels_setProp]
        constructor
        · revert h1
          unfold settingHouseLimit
          omega
        · revert h2 hcap
          unfold settingHotelLimit
          omega
    · by_cases hcap : s.nHouses = settingHouseLimit
      · simp only [hh, hcap]
        simp
        exact ⟨h1, h2⟩
      · simp only [hh, hcap]
        simp [nHouses_take_money, nHotels_take_money, nHouses_setPl,
          nHotels_setPl, nHouses_setProp, nHotels_setProp]
        constructor
        · revert h1 hcap
          unfold settingHouseLimit
          omega
        · exact h2

theorem improveRun_inv (calls : List (Nat × Int)) : ∀ s : Board,
    s.nHouses ≤ settingHouseLimit → s.nHotels ≤ settingHotelLimit →
    (s.improveRun calls).nHouses ≤ settingHouseLimit
    ∧ (s.improveRun calls).nHotels ≤ settingHotelLimit := by
  induction calls with
  | nil => intro s h1 h2; exact ⟨h1, h2⟩
  | cons c rest ih =>
    intro s h1 h2
    have hstep := improve_property_inv s c.1 c.2 h1 h2
    have := ih (s.improve_property c.1 c.2).1 hstep.1 hstep.2
    simpa [Board.improveRun] using this

/-- C9: the global house and hotel counters never exceed
`settingHouseLimit` / `settingHotelLimit` under any sequence of
`improve_property` calls; a hotel build is refused when `nHotels` equals the
hotel cap and a house build is refused when `nHouses` equals the house cap
(regardless of available money); a successful hotel build increments
`nHotels` by one and returns four houses to the house supply. -/
theorem claim9_building_caps (s : Board)
    (hinv : s.nHouses ≤ settingHouseLimit ∧ s.nHotels ≤ settingHotelLimit) :
    (∀ calls : List (Nat × Int),
        (s.improveRun calls).nHouses ≤ settingHouseLimit
        ∧ (s.improveRun calls).nHotels ≤ settingHotelLimit)
  ∧ (∀ pid : Nat, ∀ avail : Int, ∀ i : Nat,
      Board.choose_property_to_build (s.pl pid) avail = some i →
      ((s.propAt i).hasHouses = 4 → s.nHotels = settingHotelLimit →
          s.improve_property pid avail = (s, false))
    ∧ ((s.propAt i).hasHouses ≠ 4 → s.nHouses = settingHouseLimit →
          s.improve_property pid avail = (s, false))
    ∧ ((s.propAt i).hasHouses = 4 → s.nHotels ≠ settingHotelLimit →
          (s.improve_property pid avail).1.nHotels = s.nHotels + 1
        ∧ (s.improve_property pid avail).1.nHouses = s.nHouses - 4
        ∧ (s.improve_property pid avail).2 = true)) := by
  constructor
  · intro calls
    exact improveRun_inv calls s hinv.1 hinv.2
  · intro pid avail i hch
    refine ⟨fun hh hcap => ?_, fun hh hcap => ?_, fun hh hcap => ?_⟩
    · unfold Board.improve_property
      rw [hch]
      simp [hh, hcap]
    · unfold Board.improve_property
      rw [hch]
      simp [hh, hcap]
    · unfold Board.improve_property
      rw [hch]
      simp [hh, hcap, nHouses_take_money, nHotels_take_money, nHouses_setPl,
        nHotels_setPl, nHouses_setProp, nHotels_setProp]

/-- Concrete state for the C9 witness: player 0 holds the Brown monopoly with
four houses on each plot (8 of the 32 houses in use), ready to buy a hotel. -/
def c9state : Board :=
  ({ initBoard [mkPlayer "p0" 2000] with
      b := modifyIdx (modifyIdx (initBoard [mkPlayer "p0" 2000]).b 1 fun _ =>
          Cell.property { mkProperty "A1 Mediterranean Avenue" 60 2 50
            [10, 30, 90, 160, 250] PropertyGroup.BROWN with
            owner := some 0, hasHouses := 4 }) 3 fun _ =>
          Cell.property { mkProperty "A2 Baltic Avenue" 60 4 50
            [20, 60, 180, 320, 450] PropertyGroup.BROWN with
            owner := some 0, hasHouses := 4 },
      nHouses := 8 }).recalculate_after_property_change

/-- Witness for C9: from the concrete hotel-ready state, cap preservation
under a two-call sequence and the effects of one successful hotel build
(`nHotels` up by one, four houses returned to the supply). -/
theorem claim9_witness :
    ((c9state.improveRun [(0, 1000), (0, 1000)]).nHouses ≤ settingHouseLimit
      ∧ (c9state.improveRun [(0, 1000), (0, 1000)]).nHotels
          ≤ settingHotelLimit)
    ∧ (c9state.improve_property 0 1000).1.nHotels = c9state.nHotels + 1
    ∧ (c9state.improve_property 0 1000).1.nHouses = c9state.nHouses - 4
    ∧ (c9state.improve_property 0 1000).2 = true := by
  have h := claim9_building_caps c9state (by decide)
  have h2 := (h.2 0 1000 3 (by decide)).2.2 (by decide) (by decide)
  exact ⟨h.1 [(0, 1000), (0, 1000)], h2.1, h2.2.1, h2.2.2⟩

theorem recalc_owner (s : Board) (i : Nat) (p : Property)
    (h : s.b.get? i = some (Cell.property p)) :
    ∃ p', (s.recalculate_after_property_change).b.get? i
        = some (Cell.property p')
      ∧ p'.owner = p.owner ∧ p'.is_mortgaged = p.is_mortgaged
      ∧ p'.hasHouses = p.hasHouses ∧ p'.group = p.group
      ∧ p'.cost_base = p.cost_base := by
  have hb : (s.recalculate_after_property_change).b = (s.check_monopolies).b :=
    rfl
  rw [hb]
  unfold Board.check_monopolies
  have hmap : ((s.b.map fun c => match c with
      | Cell.property p =>
        Cell.property { p with is_monopoly :=
          (match assocFind (monopolyGroups s.b []) p.group with
           | some (some _) => true
           | _ => false) }
      | c => c)).get? i
      = ((s.b.get? i).map fun c => match c with
      | Cell.property p =>
        Cell.property { p with is_monopoly :=
          (match assocFind (monopolyGroups s.b []) p.group with
           | some (some _) => true
           | _ => false) }
      | c => c) := by
    exact List.get?_map _ s.b i
  rw [hmap, h]
  exact ⟨_, rfl, rfl, rfl, rfl, rfl, rfl⟩

theorem recalc_pl (s : Board) (q : Nat) :
    ((s.recalculate_after_property_change).pl q).money = (s.pl q).money
    ∧ ((s.recalculate_after_property_change).pl q).is_bankrupt
        = (s.pl q).is_bankrupt
    ∧ ((s.recalculate_after_property_change).pl q).name = (s.pl q).name
    ∧ ((s.recalculate_after_property_change).pl q).has_mortgages
        = (s.pl q).has_mortgages
    ∧ ((s.recalculate_after_property_change).pl q).cash_limit
        = (s.pl q).cash_limit
    ∧ ((s.recalculate_after_property_change).pl q).position = (s.pl q).position
    ∧ ((s.recalculate_after_property_change).pl q).in_jail = (s.pl q).in_jail := by
  have hpl : (s.recalculate_after_property_change).players
      = mapWithIdx (fun qq pp =>
        { pp with
          plots_wanted := (s.check_monopolies).get_list_of_wanted_plots qq,
          plots_offered := (s.check_monopolies).get_list_of_offered_plots qq,
          plots_to_build := (s.check_monopolies).list_property_to_build qq })
        s.players := rfl
  have hg := mapWithIdx_get? (fun qq (pp : Player) =>
        { pp with
          plots_wanted := (s.check_monopolies).get_list_of_wanted_plots qq,
          plots_offered := (s.check_monopolies).get_list_of_offered_plots qq,
          plots_to_build := (s.check_monopolies).list_property_to_build qq })
        s.players q
  cases hq : s.players.get? q with
  | none =>
    have h1 : (s.recalculate_after_property_change).pl q = default := by
      simp [Board.pl, hpl, List.getD_eq_getElem?_getD, ← List.get?_eq_getElem?,
        hg, hq]
    have h2 : s.pl q = default := by
      simp [Board.pl, List.getD_eq_getElem?_getD, ← List.get?_eq_getElem?, hq]
    rw [h1, h2]
    exact ⟨rfl, rfl, rfl, rfl, rfl, rfl, rfl⟩
  | some pl =>
    have h1 : (s.recalculate_after_property_change).pl q
        = { pl with
          plots_wanted := (s.check_monopolies).get_list_of_wanted_plots q,
          plots_offered := (s.check_monopolies).get_list_of_offered_plots q,
          plots_to_build := (s.check_monopolies).list_property_to_build q } := by
      simp [Board.pl, hpl, List.getD_eq_getElem?_getD, ← List.get?_eq_getElem?,
        hg, hq]
    have h2 : s.pl q = pl := pl_eq_of_get? s q pl hq
    rw [h1, h2]
    exact ⟨rfl, rfl, rfl, rfl, rfl, rfl, rfl⟩

/-- Helper for small concrete scenarios: an owned, unimproved property. -/
def mkOwned (name : String) (cost : Int) (g : PropertyGroup) (o : Option Nat) :
    Property :=
  { mkProperty name cost 10 50 [1, 2, 3, 4, 5] g with owner := o }

/-- Concrete input for C3: player 0 owns two of the three Orange plots and a
lone Red plot; player 1 owns the remaining Orange plot and two Red plots, so
a reciprocal two-way match on plots 2 and 5 exists. Player 0 (who would
receive the MORE expensive plot 2 and pay the difference) is poor; player 1
(who would receive the CHEAPER plot 5) is rich. -/
def c3state : Board :=
  Board.recalculate_after_property_change
    { b := [Cell.property (mkOwned "o1" 100 PropertyGroup.ORANGE (some 0)),
            Cell.property (mkOwned "o2" 110 PropertyGroup.ORANGE (some 0)),
            Cell.property (mkOwned "o3" 200 PropertyGroup.ORANGE (some 1)),
            Cell.property (mkOwned "r1" 120 PropertyGroup.RED (some 1)),
            Cell.property (mkOwned "r2" 130 PropertyGroup.RED (some 1)),
            Cell.property (mkOwned "r3" 100 PropertyGroup.RED (some 0))],
      players := [mkPlayer "p0" 50, mkPlayer "p1" 10000],
      nHouses := 0, nHotels := 0, chanceCards := [], communityCards := [] }

/-- C3 counterexample: a full two-way match exists and the party receiving the
cheaper property (player 1) can easily pay the base-cost difference without
dropping below its cash floor, yet the trade does NOT execute — the source
instead requires the OTHER party (the owner of the cheaper plot, who receives
the more expensive one and pays) to afford the difference. -/
theorem claim3_counterexample :
    (c3state.pl 0).plots_wanted = [2]
    ∧ (c3state.pl 1).plots_wanted = [5]
    ∧ (c3state.pl 0).plots_offered = [5]
    ∧ (c3state.propAt 2).group ≠ (c3state.propAt 5).group
    ∧ (c3state.propAt 5).cost_base < (c3state.propAt 2).cost_base
    ∧ (c3state.pl 1).cash_limit
        ≤ (c3state.pl 1).money
          - ((c3state.propAt 2).cost_base - (c3state.propAt 5).cost_base)
    ∧ c3state.two_way_trade 0 = (c3state, false) := by
  refine ⟨by decide, by decide, by decide, by decide, by decide, by decide,
    by decide⟩

/-- C3 (amended): a matched two-way candidate pair first resolves the
cheaper/more-expensive roles by base cost (on a cost tie the offered plot
takes the cheaper role); in EITHER orientation it executes if and only if
the CURRENT OWNER OF THE CHEAPER plot — the party that receives the more
expensive property — can pay the base-cost difference without its cash
dropping below its own cash floor; on execution the two ownerships swap and
exactly the base-cost difference moves from that payer to the party
receiving the cheaper property. -/
theorem claim3_amended_two_way_candidate (s : Board)
    (pid oid i_want they_want : Nat) (pw pt : Property) (plP plO : Player)
    (hw : s.b.get? i_want = some (Cell.property pw))
    (ht : s.b.get? they_want = some (Cell.property pt))
    (how : pw.owner = some oid)
    (hot : pt.owner = some pid)
    (hne : oid ≠ pid)
    (hpid : s.players.get? pid = some plP)
    (hoid : s.players.get? oid = some plO)
    (hmem : they_want ∈ (s.pl pid).plots_offered)
    (hg : pw.group ≠ pt.group) :
    ((s.twoWayCandidate pid i_want they_want).2 = true
      ↔ (if pw.cost_base < pt.cost_base
         then plO.cash_limit ≤ plO.money - (pt.cost_base - pw.cost_base)
         else plP.cash_limit ≤ plP.money - (pw.cost_base - pt.cost_base)))
    ∧ ((s.twoWayCandidate pid i_want they_want).2 = true →
        ∃ pw' pt',
          (s.twoWayCandidate pid i_want they_want).1.b.get? i_want
            = some (Cell.property pw')
          ∧ pw'.owner = some pid
          ∧ (s.twoWayCandidate pid i_want they_want).1.b.get? they_want
            = some (Cell.property pt')
          ∧ pt'.owner = some oid
          ∧ (if pw.cost_base < pt.cost_base
             then ((s.twoWayCandidate pid i_want they_want).1.pl oid).money
                    = plO.money - (pt.cost_base - pw.cost_base)
                ∧ ((s.twoWayCandidate pid i_want they_want).1.pl pid).money
                    = plP.money + (pt.cost_base - pw.cost_base)
             else ((s.twoWayCandidate pid i_want they_want).1.pl pid).money
                    = plP.money - (pw.cost_base - pt.cost_base)
                ∧ ((s.twoWayCandidate pid i_want they_want).1.pl oid).money
                    = plO.money + (pw.cost_base - pt.cost_base))) := by
  have hneq : i_want ≠ they_want := by
    intro he
    rw [he, ht] at hw
    exact hg (by injection hw with hv; injection hv with hv2; rw [hv2])
  have hpAw : s.propAt i_want = pw := propAt_of_get? s i_want pw hw
  have hpAt : s.propAt they_want = pt := propAt_of_get? s they_want pt ht
  have hplP : s.pl pid = plP := pl_eq_of_get? s pid plP hpid
  have hplO : s.pl oid = plO := pl_eq_of_get? s oid plO hoid
  have hcond : they_want ∈ (s.pl pid).plots_offered
      ∧ (s.propAt i_want).group ≠ (s.propAt they_want).group := by
    rw [hpAw, hpAt]; exact ⟨hmem, hg⟩
  by_cases horient : pw.cost_base < pt.cost_base
  · -- the wanted plot is the cheaper one: its owner `oid` is the payer
    rw [if_pos horient, if_pos horient]
    have hpairc : (s.propAt i_want).cost_base
        < (s.propAt they_want).cost_base := by
      rw [hpAw, hpAt]; exact horient
    have hMAIN : s.twoWayCandidate pid i_want they_want
        = (if plO.cash_limit ≤ plO.money - (pt.cost_base - pw.cost_base) then
            (((((s.take_money oid (pt.cost_base - pw.cost_base)).add_money pid
              (pt.cost_base - pw.cost_base)).setProp i_want fun q =>
                { q with owner := some pid }).setProp they_want fun q =>
                { q with owner := some oid }).recalculate_after_property_change,
              true)
           else (s, false)) := by
      unfold Board.twoWayCandidate
      rw [if_pos hcond, if_pos hpairc]
      dsimp only
      simp only [hpAw, hpAt, hot, how, hplO]
    constructor
    · rw [hMAIN]
      by_cases haff : plO.cash_limit ≤ plO.money - (pt.cost_base - pw.cost_base)
      · rw [if_pos haff]; simpa using haff
      · rw [if_neg haff]; simpa using haff
    · intro hex
      have haff : plO.cash_limit
          ≤ plO.money - (pt.cost_base - pw.cost_base) := by
        by_cases haff : plO.cash_limit
            ≤ plO.money - (pt.cost_base - pw.cost_base)
        · exact haff
        · rw [hMAIN, if_neg haff] at hex
          exact absurd hex (by simp)
      rw [hMAIN, if_pos haff]
      set d := pt.cost_base - pw.cost_base with hd
      set t3 := (((s.take_money oid d).add_money pid d).setProp i_want
          fun q => { q with owner := some pid }).setProp they_want fun q =>
          { q with owner := some oid } with ht3
      have hb_t3_iw : t3.b.get? i_want
          = some (Cell.property { pw with owner := some pid }) := by
        rw [ht3]
        have h1 := b_get?_setProp_self ((s.take_money oid d).add_money pid d)
          i_want (fun q => { q with owner := some pid }) pw hw
        have h2 : ((((s.take_money oid d).add_money pid d).setProp i_want
            fun q => { q with owner := some pid }).setProp they_want fun q =>
            { q with owner := some oid }).b.get? i_want
            = (((s.take_money oid d).add_money pid d).setProp i_want
            fun q => { q with owner := some pid }).b.get? i_want :=
          b_get?_setProp_other _ they_want i_want _ (Ne.symm hneq)
        rw [h2, h1]
      have hb_t3_tw : t3.b.get? they_want
          = some (Cell.property { pt with owner := some oid }) := by
        rw [ht3]
        have h1 : (((s.take_money oid d).add_money pid d).setProp i_want
            fun q => { q with owner := some pid }).b.get? they_want
              = s.b.get? they_want :=
          b_get?_setProp_other _ i_want they_want _ hneq
        exact b_get?_setProp_self (((s.take_money oid d).add_money
          pid d).setProp i_want fun q => { q with owner := some pid })
          they_want (fun q => { q with owner := some oid }) pt
          (by rw [h1]; exact ht)
      have hm_oid : (t3.pl oid).money = plO.money - d := by
        have h1 : (s.take_money oid d).players.get? oid
            = some { plO with money := plO.money - d } :=
          modifyIdx_get?_self s.players oid _ plO hoid
        have h2 : ((s.take_money oid d).add_money pid d).players.get? oid
            = some { plO with money := plO.money - d } := by
          have := modifyIdx_get?_ne (s.take_money oid d).players pid oid
            (fun p => { p with money := p.money + d }) (Ne.symm hne)
          rw [Board.add_money, Board.setPl]
          rw [this]; exact h1
        have h3 : t3.players.get? oid
            = some { plO with money := plO.money - d } := h2
        rw [pl_eq_of_get? t3 oid _ h3]
      have hm_pid : (t3.pl pid).money = plP.money + d := by
        have h1 : (s.take_money oid d).players.get? pid = some plP := by
          have := modifyIdx_get?_ne s.players oid pid
            (fun p => { p with money := p.money - d }) hne
          rw [Board.take_money, Board.setPl, this]; exact hpid
        have h2 : ((s.take_money oid d).add_money pid d).players.get? pid
            = some { plP with money := plP.money + d } :=
          modifyIdx_get?_self _ pid _ plP h1
        have h3 : t3.players.get? pid
            = some { plP with money := plP.money + d } := h2
        rw [pl_eq_of_get? t3 pid _ h3]
      obtain ⟨pw2, hpw2, how2, -, -, -, -⟩ := recalc_owner t3 i_want
        { pw with owner := some pid } hb_t3_iw
      obtain ⟨pt2, hpt2, hot2, -, -, -, -⟩ := recalc_owner t3 they_want
        { pt with owner := some oid } hb_t3_tw
      refine ⟨pw2, pt2, hpw2, by rw [how2], hpt2, by rw [hot2], ?_, ?_⟩
      · rw [(recalc_pl t3 oid).1, hm_oid]
      · rw [(recalc_pl t3 pid).1, hm_pid]
  · -- the offered plot takes the cheaper role (also on a cost tie):
    -- its owner, the acting player `pid`, is the payer
    rw [if_neg horient, if_neg horient]
    have hpairc : ¬ ((s.propAt i_want).cost_base
        < (s.propAt they_want).cost_base) := by
      rw [hpAw, hpAt]; exact horient
    have hMAIN : s.twoWayCandidate pid i_want they_want
        = (if plP.cash_limit ≤ plP.money - (pw.cost_base - pt.cost_base) then
            (((((s.take_money pid (pw.cost_base - pt.cost_base)).add_money oid
              (pw.cost_base - pt.cost_base)).setProp they_want fun q =>
                { q with owner := some oid }).setProp i_want fun q =>
                { q with owner := some pid }).recalculate_after_property_change,
              true)
           else (s, false)) := by
      unfold Board.twoWayCandidate
      rw [if_pos hcond, if_neg hpairc]
      dsimp only
      simp only [hpAw, hpAt, hot, how, hplP]
    constructor
    · rw [hMAIN]
      by_cases haff : plP.cash_limit ≤ plP.money - (pw.cost_base - pt.cost_base)
      · rw [if_pos haff]; simpa using haff
      · rw [if_neg haff]; simpa using haff
    · intro hex
      have haff : plP.cash_limit
          ≤ plP.money - (pw.cost_base - pt.cost_base) := by
        by_cases haff : plP.cash_limit
            ≤ plP.money - (pw.cost_base - pt.cost_base)
        · exact haff
        · rw [hMAIN, if_neg haff] at hex
          exact absurd hex (by simp)
      rw [hMAIN, if_pos haff]
      set d := pw.cost_base - pt.cost_base with hd
      set t3 := (((s.take_money pid d).add_money oid d).setProp they_want
          fun q => { q with owner := some oid }).setProp i_want fun q =>
          { q with owner := some pid } with ht3
      have hb_t3_iw : t3.b.get? i_want
          = some (Cell.property { pw with owner := some pid }) := by
        rw [ht3]
        have h1 : (((s.take_money pid d).add_money oid d).setProp they_want
            fun q => { q with owner := some oid }).b.get? i_want
              = s.b.get? i_want :=
          b_get?_setProp_other _ they_want i_want _ (Ne.symm hneq)
        have h2 := b_get?_setProp_self
          (((s.take_money pid d).add_money oid d).setProp they_want
            fun q => { q with owner := some oid }) i_want
          (fun q => { q with owner := some pid }) pw (by rw [h1]; exact hw)
        exact h2
      have hb_t3_tw : t3.b.get? they_want
          = some (Cell.property { pt with owner := some oid }) := by
        rw [ht3]
        have h1 := b_get?_setProp_self ((s.take_money pid d).add_money oid d)
          they_want (fun q => { q with owner := some oid }) pt ht
        have h2 : ((((s.take_money pid d).add_money oid d).setProp they_want
            fun q => { q with owner := some oid }).setProp i_want fun q =>
            { q with owner := some pid }).b.get? they_want
            = (((s.take_money pid d).add_money oid d).setProp they_want
            fun q => { q with owner := some oid }).b.get? they_want :=
          b_get?_setProp_other _ i_want they_want _ hneq
        rw [h2, h1]
      have hm_pid : (t3.pl pid).money = plP.money - d := by
        have h1 : (s.take_money pid d).players.get? pid
            = some { plP with money := plP.money - d } := by
          exact modifyIdx_get?_self s.players pid _ plP hpid
        have h2 : ((s.take_money pid d).add_money oid d).players.get? pid
            = some { plP with money := plP.money - d } := by
          have := modifyIdx_get?_ne (s.take_money pid d).players oid pid
            (fun p => { p with money := p.money + d }) hne
          rw [Board.add_money, Board.setPl]
          rw [this]; exact h1
        have h3 : t3.players.get? pid
            = some { plP with money := plP.money - d } := h2
        rw [pl_eq_of_get? t3 pid _ h3]
      have hm_oid : (t3.pl oid).money = plO.money + d := by
        have h1 : (s.take_money pid d).players.get? oid = some plO := by
          have := modifyIdx_get?_ne s.players pid oid
            (fun p => { p with money := p.money - d }) (Ne.symm hne)
          rw [Board.take_money, Board.setPl, this]; exact hoid
        have h2 : ((s.take_money pid d).add_money oid d).players.get? oid
            = some { plO with money := plO.money + d } := by
          exact modifyIdx_get?_self _ oid _ plO h1
        have h3 : t3.players.get? oid
            = some { plO with money := plO.money + d } := h2
        rw [pl_eq_of_get? t3 oid _ h3]
      obtain ⟨pw2, hpw2, how2, -, -, -, -⟩ := recalc_owner t3 i_want
        { pw with owner := some pid } hb_t3_iw
      obtain ⟨pt2, hpt2, hot2, -, -, -, -⟩ := recalc_owner t3 they_want
        { pt with owner := some oid } hb_t3_tw
      refine ⟨pw2, pt2, hpw2, by rw [how2], hpt2, by rw [hot2], ?_, ?_⟩
      · rw [(recalc_pl t3 pid).1, hm_pid]
      · rw [(recalc_pl t3 oid).1, hm_oid]

/-- C3 witness state: same layout as `c3state` but the paying party (player 0)
is rich, so the matched candidate executes. -/
def c3wstate : Board :=
  Board.recalculate_after_property_change
    { b := [Cell.property (mkOwned "o1" 100 PropertyGroup.ORANGE (some 0)),
            Cell.property (mkOwned "o2" 110 PropertyGroup.ORANGE (some 0)),
            Cell.property (mkOwned "o3" 200 PropertyGroup.ORANGE (some 1)),
            Cell.property (mkOwned "r1" 120 PropertyGroup.RED (some 1)),
            Cell.property (mkOwned "r2" 130 PropertyGroup.RED (some 1)),
            Cell.property (mkOwned "r3" 100 PropertyGroup.RED (some 0))],
      players := [mkPlayer "p0" 5000, mkPlayer "p1" 10000],
      nHouses := 0, nHotels := 0, chanceCards := [], communityCards := [] }

/-- Witness for the amended C3 at concrete inputs exercising BOTH
orientations: player 0 wants the more expensive plot 2 (player 0 owns the
cheaper plot and pays), and player 1 wants the cheaper plot 5 (the
counterpart, player 0, owns the cheaper plot and pays); in each case the
candidate executes exactly because the owner of the cheaper plot can pay
the difference. -/
theorem claim3_witness :
    (c3wstate.twoWayCandidate 0 2 5).2 = true
    ∧ (c3wstate.twoWayCandidate 1 5 2).2 = true := by
  constructor
  · have h := claim3_amended_two_way_candidate c3wstate 0 1 2 5
      (c3wstate.propAt 2) (c3wstate.propAt 5) (c3wstate.pl 0) (c3wstate.pl 1)
      (by decide) (by decide) (by decide) (by decide) (by decide) (by decide)
      (by decide) (by decide) (by decide)
    exact h.1.mpr (by decide)
  · have h := claim3_amended_two_way_candidate c3wstate 1 0 5 2
      (c3wstate.propAt 5) (c3wstate.propAt 2) (c3wstate.pl 1) (c3wstate.pl 0)
      (by decide) (by decide) (by decide) (by decide) (by decide) (by decide)
      (by decide) (by decide) (by decide)
    exact h.1.mpr (by decide)

/-- Concrete input for C4: three two-member groups (Brown, Indigo, Pink),
each split between two of the three players, so every wanted/offered match of
the spec's scenario holds and all parties are rich enough to pay. -/
def c4state : Board :=
  Board.recalculate_after_property_change
    { b := [Cell.property (mkOwned "br1" 60 PropertyGroup.BROWN (some 0)),
            Cell.property (mkOwned "br2" 60 PropertyGroup.BROWN (some 1)),
            Cell.property (mkOwned "in1" 350 PropertyGroup.INDIGO (some 1)),
            Cell.property (mkOwned "in2" 400 PropertyGroup.INDIGO (some 2)),
            Cell.property (mkOwned "pk1" 140 PropertyGroup.PINK (some 2)),
            Cell.property (mkOwned "pk2" 140 PropertyGroup.PINK (some 0))],
      players := [mkPlayer "p0" 10000, mkPlayer "p1" 10000,
                  mkPlayer "p2" 10000],
      nHouses := 0, nHotels := 0, chanceCards := [], communityCards := [] }

/-- C4 counterexample: the three matched plots 4 (Pink), 2 (Indigo) and
0 (Brown) come from exactly three distinct two-member groups, all
wanted/offered matches hold and every party can afford its leg — and the
three-way trade EXECUTES (ownership rotates), it is not rejected for
insufficient group diversity. -/
theorem claim4_counterexample :
    c4state.groupTotal PropertyGroup.BROWN = 2
    ∧ c4state.groupTotal PropertyGroup.INDIGO = 2
    ∧ c4state.groupTotal PropertyGroup.PINK = 2
    ∧ (c4state.pl 0).plots_wanted = [1, 4]
    ∧ (c4state.pl 1).plots_wanted = [0, 3]
    ∧ (c4state.pl 2).plots_wanted = [2, 5]
    ∧ (c4state.pl 0).plots_offered = [0, 5]
    ∧ ((c4state.three_way_trade 0).propAt 4).owner = some 0
    ∧ ((c4state.three_way_trade 0).propAt 2).owner = some 2
    ∧ ((c4state.three_way_trade 0).propAt 0).owner = some 1
    ∧ ((c4state.three_way_trade 0).pl 0).money = 10000 - (140 - 60)
    ∧ c4state.three_way_trade 0 ≠ c4state := by
  refine ⟨by decide, by decide, by decide, by decide, by decide, by decide,
    by decide, by decide, by decide, by decide, by decide, by decide⟩

/-- C4 (amended): a three-way candidate is skipped for insufficient group
diversity precisely when its three properties span FEWER than three distinct
groups (some pair of groups coincides); when the three groups are pairwise
distinct — regardless of how many members those groups have — and every
participant can afford its payment leg, the trade executes and ownership
rotates around the cycle. -/
theorem claim4_amended_three_way_diversity (s : Board)
    (pid o1 o2 w1 w2 w3 : Nat) (p1 p2 p3 : Property)
    (hb1 : s.b.get? w1 = some (Cell.property p1))
    (hb2 : s.b.get? w2 = some (Cell.property p2))
    (hb3 : s.b.get? w3 = some (Cell.property p3))
    (hmem : w3 ∈ (s.pl pid).plots_offered) :
    ((p1.group = p2.group ∨ p1.group = p3.group ∨ p2.group = p3.group) →
        s.threeWayCandidate pid o1 o2 w1 w2 w3 = (s, false))
    ∧ (p1.group ≠ p2.group → p1.group ≠ p3.group → p2.group ≠ p3.group →
       (s.pl pid).cash_limit
          < (s.pl pid).money - (p1.cost_base - p3.cost_base) →
       (s.pl o1).cash_limit
          < (s.pl o1).money - (p2.cost_base - p1.cost_base) →
       (s.pl o2).cash_limit
          < (s.pl o2).money - (p3.cost_base - p2.cost_base) →
       (s.threeWayCandidate pid o1 o2 w1 w2 w3).2 = true
       ∧ ∃ q1 q2 q3,
           (s.threeWayCandidate pid o1 o2 w1 w2 w3).1.b.get? w1
              = some (Cell.property q1) ∧ q1.owner = some pid
         ∧ (s.threeWayCandidate pid o1 o2 w1 w2 w3).1.b.get? w2
              = some (Cell.property q2) ∧ q2.owner = some o1
         ∧ (s.threeWayCandidate pid o1 o2 w1 w2 w3).1.b.get? w3
              = some (Cell.property q3) ∧ q3.owner = some o2) := by
  have hpA1 : s.propAt w1 = p1 := propAt_of_get? s w1 p1 hb1
  have hpA2 : s.propAt w2 = p2 := propAt_of_get? s w2 p2 hb2
  have hpA3 : s.propAt w3 = p3 := propAt_of_get? s w3 p3 hb3
  constructor
  · intro hdisj
    unfold Board.threeWayCandidate
    rw [if_pos hmem]
    simp only [hpA1, hpA2, hpA3]
    rw [if_pos hdisj]
  · intro hg12 hg13 hg23 ha1 ha2 ha3
    have hw12 : w1 ≠ w2 := by
      intro he; rw [he, hb2] at hb1
      exact hg12 (by injection hb1 with hv; injection hv with hv2; rw [hv2])
    have hw13 : w1 ≠ w3 := by
      intro he; rw [he, hb3] at hb1
      exact hg13 (by injection hb1 with hv; injection hv with hv2; rw [hv2])
    have hw23 : w2 ≠ w3 := by
      intro he; rw [he, hb3] at hb2
      exact hg23 (by injection hb2 with hv; injection hv with hv2; rw [hv2])
    have hnd : ¬ (p1.group = p2.group ∨ p1.group = p3.group
        ∨ p2.group = p3.group) := by
      push_neg
      exact ⟨hg12, hg13, hg23⟩
    have haff : (s.pl pid).cash_limit
          < (s.pl pid).money - (p1.cost_base - p3.cost_base)
        ∧ (s.pl o1).cash_limit
          < (s.pl o1).money - (p2.cost_base - p1.cost_base)
        ∧ (s.pl o2).cash_limit
          < (s.pl o2).money - (p3.cost_base - p2.cost_base) :=
      ⟨ha1, ha2, ha3⟩
    have hMAIN : s.threeWayCandidate pid o1 o2 w1 w2 w3
        = ((((((((s.setProp w1 fun q => { q with owner := some pid }).setProp
            w2 fun q => { q with owner := some o1 }).setProp w3 fun q =>
            { q with owner := some o2 }).take_money pid
              (p1.cost_base - p3.cost_base)).take_money o1
              (p2.cost_base - p1.cost_base)).take_money o2
              (p3.cost_base - p2.cost_base))).recalculate_after_property_change,
          true) := by
      unfold Board.threeWayCandidate
      rw [if_pos hmem]
      simp only [hpA1, hpA2, hpA3]
      rw [if_neg hnd, if_pos haff]
    rw [hMAIN]
    refine ⟨rfl, ?_⟩
    -- lookups of the three plots in the pre-recalc state
    have hg1 : ((((s.setProp w1 fun q => { q with owner := some pid }).setProp
        w2 fun q => { q with owner := some o1 }).setProp w3 fun q =>
        { q with owner := some o2 })).b.get? w1
          = some (Cell.property { p1 with owner := some pid }) := by
      have e1 := b_get?_setProp_self s w1
        (fun q => { q with owner := some pid }) p1 hb1
      have e2 : ((s.setProp w1 fun q => { q with owner := some pid }).setProp
          w2 fun q => { q with owner := some o1 }).b.get? w1
            = (s.setProp w1 fun q => { q with owner := some pid }).b.get? w1 :=
        b_get?_setProp_other _ w2 w1 _ (Ne.symm hw12)
      have e3 := b_get?_setProp_other ((s.setProp w1 fun q =>
          { q with owner := some pid }).setProp w2 fun q =>
          { q with owner := some o1 }) w3 w1
          (fun q => { q with owner := some o2 }) (Ne.symm hw13)
      rw [e3, e2, e1]
    have hg2 : ((((s.setProp w1 fun q => { q with owner := some pid }).setProp
        w2 fun q => { q with owner := some o1 }).setProp w3 fun q =>
        { q with owner := some o2 })).b.get? w2
          = some (Cell.property { p2 with owner := some o1 }) := by
      have e0 : (s.setProp w1 fun q => { q with owner := some pid }).b.get? w2
          = s.b.get? w2 := b_get?_setProp_other s w1 w2 _ hw12
      have e1 := b_get?_setProp_self
        (s.setProp w1 fun q => { q with owner := some pid }) w2
        (fun q => { q with owner := some o1 }) p2 (by rw [e0]; exact hb2)
      have e3 := b_get?_setProp_other ((s.setProp w1 fun q =>
          { q with owner := some pid }).setProp w2 fun q =>
          { q with owner := some o1 }) w3 w2
          (fun q => { q with owner := some o2 }) (Ne.symm hw23)
      rw [e3, e1]
    have hg3 : ((((s.setProp w1 fun q => { q with owner := some pid }).setProp
        w2 fun q => { q with owner := some o1 }).setProp w3 fun q =>
        { q with owner := some o2 })).b.get? w3
          = some (Cell.property { p3 with owner := some o2 }) := by
      have e0 : (s.setProp w1 fun q => { q with owner := some pid }).b.get? w3
          = s.b.get? w3 := b_get?_setProp_other s w1 w3 _ hw13
      have e1 : ((s.setProp w1 fun q => { q with owner := some pid }).setProp
          w2 fun q => { q with owner := some o1 }).b.get? w3
            = s.b.get? w3 := by
        rw [b_get?_setProp_other _ w2 w3 _ hw23, e0]
      exact b_get?_setProp_self _ w3 (fun q => { q with owner := some o2 }) p3
        (by rw [e1]; exact hb3)
    -- the three cash transfers do not change the board
    obtain ⟨q1, hq1, hqo1, _⟩ := recalc_owner _ w1 { p1 with owner := some pid }
      hg1
    obtain ⟨q2, hq2, hqo2, _⟩ := recalc_owner _ w2 { p2 with owner := some o1 }
      hg2
    obtain ⟨q3, hq3, hqo3, _⟩ := recalc_owner _ w3 { p3 with owner := some o2 }
      hg3
    exact ⟨q1, q2, q3, hq1, by rw [hqo1], hq2, by rw [hqo2], hq3, by rw [hqo3]⟩

/-- Witness for the amended C4 at the concrete three-group state: the
candidate (pid 0, owners 2 and 1, plots 4, 2, 0) passes the diversity check
and executes. -/
theorem claim4_witness : (c4state.threeWayCandidate 0 2 1 4 2 0).2 = true := by
  have h := (claim4_amended_three_way_diversity c4state 0 2 1 4 2 0
    (c4state.propAt 4) (c4state.propAt 2) (c4state.propAt 0)
    (by decide) (by decide) (by decide) (by decide)).2
    (by decide) (by decide) (by decide) (by decide) (by decide) (by decide)
  exact h.1

theorem threeWayCandidate_cases (s : Board) (pid o1 o2 w1 w2 w3 : Nat) :
    s.threeWayCandidate pid o1 o2 w1 w2 w3 = (s, false)
    ∨ s.threeWayCandidate pid o1 o2 w1 w2 w3
      = (((((((s.setProp w1 fun q => { q with owner := some pid }).setProp w2
          fun q => { q with owner := some o1 }).setProp w3 fun q =>
          { q with owner := some o2 }).take_money pid
            ((s.propAt w1).cost_base - (s.propAt w3).cost_base)).take_money o1
            ((s.propAt w2).cost_base
              - (s.propAt w1).cost_base)).take_money o2
            ((s.propAt w3).cost_base
              - (s.propAt w2).cost_base)).recalculate_after_property_change,
        true) := by
  unfold Board.threeWayCandidate
  by_cases hm : w3 ∈ (s.pl pid).plots_offered
  · rw [if_pos hm]
    by_cases hg : (s.propAt w1).group = (s.propAt w2).group
        ∨ (s.propAt w1).group = (s.propAt w3).group
        ∨ (s.propAt w2).group = (s.propAt w3).group
    · rw [if_pos hg]; left; rfl
    · rw [if_neg hg]
      dsimp only
      by_cases ha : (s.pl pid).cash_limit
            < (s.pl pid).money
              - ((s.propAt w1).cost_base - (s.propAt w3).cost_base)
          ∧ (s.pl o1).cash_limit
            < (s.pl o1).money
              - ((s.propAt w2).cost_base - (s.propAt w1).cost_base)
          ∧ (s.pl o2).cash_limit
            < (s.pl o2).money
              - ((s.propAt w3).cost_base - (s.propAt w2).cost_base)
      · rw [if_pos ha]; right; rfl
      · rw [if_neg ha]; left; rfl
  · rw [if_neg hm]; left; rfl

/-- C10: the three payment legs of a three-way trade sum to exactly zero, and
the total cash of the three (distinct) participants is unchanged by the
candidate step — whether or not the trade executes. -/
theorem claim10_three_way_money_conservation (s : Board)
    (pid o1 o2 w1 w2 w3 : Nat) (plP pl1 pl2 : Player)
    (hpid : s.players.get? pid = some plP)
    (ho1 : s.players.get? o1 = some pl1)
    (ho2 : s.players.get? o2 = some pl2)
    (hd1 : pid ≠ o1) (hd2 : pid ≠ o2) (hd3 : o1 ≠ o2) :
    ((s.propAt w1).cost_base - (s.propAt w3).cost_base)
      + ((s.propAt w2).cost_base - (s.propAt w1).cost_base)
      + ((s.propAt w3).cost_base - (s.propAt w2).cost_base) = 0
    ∧ ((s.threeWayCandidate pid o1 o2 w1 w2 w3).1.pl pid).money
        + ((s.threeWayCandidate pid o1 o2 w1 w2 w3).1.pl o1).money
        + ((s.threeWayCandidate pid o1 o2 w1 w2 w3).1.pl o2).money
      = (s.pl pid).money + (s.pl o1).money + (s.pl o2).money := by
  refine ⟨by ring, ?_⟩
  rcases threeWayCandidate_cases s pid o1 o2 w1 w2 w3 with hc | hc
  · rw [hc]
  · rw [hc]
    set t1 := (s.propAt w1).cost_base - (s.propAt w3).cost_base with ht1
    set t2 := (s.propAt w2).cost_base - (s.propAt w1).cost_base with ht2
    set t3 := (s.propAt w3).cost_base - (s.propAt w2).cost_base with ht3
    set P3 := ((s.setProp w1 fun q => { q with owner := some pid }).setProp w2
        fun q => { q with owner := some o1 }).setProp w3 fun q =>
        { q with owner := some o2 } with hP3
    have hP3pid : P3.players.get? pid = some plP := hpid
    have hP3o1 : P3.players.get? o1 = some pl1 := ho1
    have hP3o2 : P3.players.get? o2 = some pl2 := ho2
    have hA : (P3.take_money pid t1).players.get? pid
        = some { plP with money := plP.money - t1 } :=
      modifyIdx_get?_self P3.players pid _ plP hP3pid
    have hA1 : (P3.take_money pid t1).players.get? o1 = some pl1 := by
      have := modifyIdx_get?_ne P3.players pid o1
        (fun p => { p with money := p.money - t1 }) hd1
      rw [Board.take_money, Board.setPl, this]; exact hP3o1
    have hA2 : (P3.take_money pid t1).players.get? o2 = some pl2 := by
      have := modifyIdx_get?_ne P3.players pid o2
        (fun p => { p with money := p.money - t1 }) hd2
      rw [Board.take_money, Board.setPl, this]; exact hP3o2
    have hB : ((P3.take_money pid t1).take_money o1 t2).players.get? o1
        = some { pl1 with money := pl1.money - t2 } :=
      modifyIdx_get?_self _ o1 _ pl1 hA1
    have hBp : ((P3.take_money pid t1).take_money o1 t2).players.get? pid
        = some { plP with money := plP.money - t1 } := by
      have := modifyIdx_get?_ne (P3.take_money pid t1).players o1 pid
        (fun p => { p with money := p.money - t2 }) (Ne.symm hd1)
      rw [Board.take_money, Board.setPl, this]; exact hA
    have hB2 : ((P3.take_money pid t1).take_money o1 t2).players.get? o2
        = some pl2 := by
      have := modifyIdx_get?_ne (P3.take_money pid t1).players o1 o2
        (fun p => { p with money := p.money - t2 }) hd3
      rw [Board.take_money, Board.setPl, this]; exact hA2
    have hC : (((P3.take_money pid t1).take_money o1 t2).take_money o2
        t3).players.get? o2 = some { pl2 with money := pl2.money - t3 } :=
      modifyIdx_get?_self _ o2 _ pl2 hB2
    have hCp : (((P3.take_money pid t1).take_money o1 t2).take_money o2
        t3).players.get? pid = some { plP with money := plP.money - t1 } := by
      have := modifyIdx_get?_ne
        ((P3.take_money pid t1).take_money o1 t2).players o2 pid
        (fun p => { p with money := p.money - t3 }) (Ne.symm hd2)
      rw [Board.take_money, Board.setPl, this]; exact hBp
    have hC1 : (((P3.take_money pid t1).take_money o1 t2).take_money o2
        t3).players.get? o1 = some { pl1 with money := pl1.money - t2 } := by
      have := modifyIdx_get?_ne
        ((P3.take_money pid t1).take_money o1 t2).players o2 o1
        (fun p => { p with money := p.money - t3 }) (Ne.symm hd3)
      rw [Board.take_money, Board.setPl, this]; exact hB
    set C := ((P3.take_money pid t1).take_money o1 t2).take_money o2 t3
      with hCdef
    have r1 := (recalc_pl C pid).1
    have r2 := (recalc_pl C o1).1
    have r3 := (recalc_pl C o2).1
    rw [r1, r2, r3, pl_eq_of_get? C pid _ hCp, pl_eq_of_get? C o1 _ hC1,
      pl_eq_of_get? C o2 _ hC,
      pl_eq_of_get? s pid _ hpid, pl_eq_of_get? s o1 _ ho1,
      pl_eq_of_get? s o2 _ ho2]
    ring

/-- Concrete input for the C10 witness: a three-party cycle over three
distinct groups (independent copy of the C4 layout). -/
def c10state : Board :=
  Board.recalculate_after_property_change
    { b := [Cell.property (mkOwned "br1" 60 PropertyGroup.BROWN (some 0)),
            Cell.property (mkOwned "br2" 60 PropertyGroup.BROWN (some 1)),
            Cell.property (mkOwned "in1" 350 PropertyGroup.INDIGO (some 1)),
            Cell.property (mkOwned "in2" 400 PropertyGroup.INDIGO (some 2)),
            Cell.property (mkOwned "pk1" 140 PropertyGroup.PINK (some 2)),
            Cell.property (mkOwned "pk2" 140 PropertyGroup.PINK (some 0))],
      players := [mkPlayer "a" 10000, mkPlayer "b" 10000, mkPlayer "c" 10000],
      nHouses := 0, nHotels := 0, chanceCards := [], communityCards := [] }

/-- Witness for C10: at a concrete executed three-way trade, the three
participants' total cash is unchanged. -/
theorem claim10_witness :
    (c10state.threeWayCandidate 0 2 1 4 2 0).2 = true
    ∧ ((c10state.threeWayCandidate 0 2 1 4 2 0).1.pl 0).money
        + ((c10state.threeWayCandidate 0 2 1 4 2 0).1.pl 2).money
        + ((c10state.threeWayCandidate 0 2 1 4 2 0).1.pl 1).money
      = (c10state.pl 0).money + (c10state.pl 2).money
        + (c10state.pl 1).money := by
  refine ⟨by decide, ?_⟩
  exact (claim10_three_way_money_conservation c10state 0 2 1 4 2 0
    (c10state.pl 0) (c10state.pl 2) (c10state.pl 1)
    (by decide) (by decide) (by decide)
    (by decide) (by decide) (by decide)).2

/-- Concrete input for C5: four three-member groups split so that player 0's
pass finds a first trade (plots 8 and 11), after which the still-running
inner loop — iterating the pre-swap snapshot of player 1's wanted list —
matches and executes a degenerate swap (plots 8 and 5, both by then owned by
player 0). -/
def c5state : Board :=
  Board.recalculate_after_property_change
    { b := [Cell.property (mkOwned "r1" 100 PropertyGroup.RED (some 0)),
            Cell.property (mkOwned "r2" 100 PropertyGroup.RED (some 0)),
            Cell.property (mkOwned "r3" 130 PropertyGroup.RED (some 1)),
            Cell.property (mkOwned "g1" 100 PropertyGroup.GREEN (some 1)),
            Cell.property (mkOwned "g2" 100 PropertyGroup.GREEN (some 1)),
            Cell.property (mkOwned "g3" 110 PropertyGroup.GREEN (some 0)),
            Cell.property (mkOwned "y1" 100 PropertyGroup.YELLOW (some 0)),
            Cell.property (mkOwned "y2" 100 PropertyGroup.YELLOW (some 0)),
            Cell.property (mkOwned "y3" 120 PropertyGroup.YELLOW (some 1)),
            Cell.property (mkOwned "i1" 100 PropertyGroup.INDIGO (some 1)),
            Cell.property (mkOwned "i2" 100 PropertyGroup.INDIGO (some 1)),
            Cell.property (mkOwned "i3" 100 PropertyGroup.INDIGO (some 0))],
      players := [mkPlayer "p0" 1000, mkPlayer "p1" 1000],
      nHouses := 0, nHotels := 0, chanceCards := [], communityCards := [] }

/-- C5 counterexample: within one `two_way_trade` pass, some swap is executed
for a candidate plot that the freshly recomputed wanted list at that moment
no longer licenses (the recorded pre-swap state `e.st` has `e.iw` outside
`get_list_of_wanted_plots e.st 0`): the match decision was made against the
pre-swap snapshot, not the recomputed lists. -/
theorem claim5_counterexample :
    ((c5state.two_way_tradeT 0).2.any fun e =>
        decide (e.iw ∉ Board.get_list_of_wanted_plots e.st 0)) = true
    ∧ (c5state.two_way_tradeT 0).1 = c5state.two_way_trade 0
    ∧ (c5state.two_way_tradeT 0).2.length = 3 := by
  refine ⟨by decide, by decide, by decide⟩

/-- Decidable check that every player's cached wanted/offered/build lists
agree with a fresh recomputation from the current state. -/
def Board.cachedListsFresh (s : Board) : Bool :=
  (List.range s.players.length).all fun q =>
    match s.players.get? q with
    | some pl => decide (pl.plots_wanted = s.get_list_of_wanted_plots q
        ∧ pl.plots_offered = s.get_list_of_offered_plots q
        ∧ pl.plots_to_build = s.list_property_to_build q)
    | none => true

theorem wanted_congr (s t : Board) (pid : Nat) (hb : t.b = s.b) :
    t.get_list_of_wanted_plots pid = s.get_list_of_wanted_plots pid := by
  unfold Board.get_list_of_wanted_plots Board.groupTotal Board.groupOwned
  simp only [hb]

theorem offered_congr (s t : Board) (pid : Nat) (hb : t.b = s.b) :
    t.get_list_of_offered_plots pid = s.get_list_of_offered_plots pid := by
  unfold Board.get_list_of_offered_plots Board.groupOwned
  simp only [hb]

theorem buildCandidates_congr (s t : Board) (pid : Nat) (hb : t.b = s.b)
    (hn : (t.pl pid).name = (s.pl pid).name) :
    t.buildCandidates pid = s.buildCandidates pid := by
  unfold Board.buildCandidates
  simp only [hb, hn]

theorem list_property_to_build_congr (s t : Board) (pid : Nat) (hb : t.b = s.b)
    (hn : (t.pl pid).name = (s.pl pid).name) :
    t.list_property_to_build pid = s.list_property_to_build pid := by
  unfold Board.list_property_to_build
  rw [buildCandidates_congr s t pid hb hn]
  simp only [hn]

theorem cachedListsFresh_recalc (s : Board) :
    (s.recalculate_after_property_change).cachedListsFresh = true := by
  unfold Board.cachedListsFresh
  rw [List.all_eq_true]
  intro q hq
  have hg := mapWithIdx_get? (fun qq (pp : Player) =>
      { pp with
        plots_wanted := (s.check_monopolies).get_list_of_wanted_plots qq,
        plots_offered := (s.check_monopolies).get_list_of_offered_plots qq,
        plots_to_build := (s.check_monopolies).list_property_to_build qq })
      s.players q
  have hpl : (s.recalculate_after_property_change).players.get? q
      = (s.players.get? q).map (fun pp =>
        { pp with
          plots_wanted := (s.check_monopolies).get_list_of_wanted_plots q,
          plots_offered := (s.check_monopolies).get_list_of_offered_plots q,
          plots_to_build := (s.check_monopolies).list_property_to_build q }) :=
    hg
  cases hsq : s.players.get? q with
  | none =>
    rw [hpl, hsq]
    rfl
  | some pl =>
    rw [hpl, hsq]
    have hb : (s.recalculate_after_property_change).b
        = (s.check_monopolies).b := rfl
    have hw := wanted_congr (s.check_monopolies)
      (s.recalculate_after_property_change) q hb
    have ho := offered_congr (s.check_monopolies)
      (s.recalculate_after_property_change) q hb
    have hname : ((s.recalculate_after_property_change).pl q).name
        = ((s.check_monopolies).pl q).name := by
      have h1 : (s.recalculate_after_property_change).pl q
          = { pl with
              plots_wanted := (s.check_monopolies).get_list_of_wanted_plots q,
              plots_offered :=
                (s.check_monopolies).get_list_of_offered_plots q,
              plots_to_build :=
                (s.check_monopolies).list_property_to_build q } :=
        pl_eq_of_get? _ q _ (by rw [hpl, hsq]; rfl)
      have h2 : (s.check_monopolies).pl q = pl := pl_eq_of_get? _ q pl hsq
      rw [h1, h2]
    have hbuild := list_property_to_build_congr (s.check_monopolies)
      (s.recalculate_after_property_change) q hb hname
    rw [Option.map_some']
    rw [decide_eq_true_eq]
    exact ⟨hw.symm, ho.symm, hbuild.symm⟩

theorem twoWayCandidate_cases (s : Board) (pid i_want they_want : Nat) :
    s.twoWayCandidate pid i_want they_want = (s, false)
    ∨ ∃ t : Board, s.twoWayCandidate pid i_want they_want
        = (t.recalculate_after_property_change, true) := by
  unfold Board.twoWayCandidate
  by_cases h1 : they_want ∈ (s.pl pid).plots_offered
      ∧ (s.propAt i_want).group ≠ (s.propAt they_want).group
  · rw [if_pos h1]
    by_cases hc : (s.propAt i_want).cost_base < (s.propAt they_want).cost_base
    · rw [if_pos hc]
      dsimp only
      cases hA : (s.propAt i_want).owner with
      | none => left; rfl
      | some cOwn =>
        cases hB : (s.propAt they_want).owner with
        | none => left; rfl
        | some eOwn =>
          dsimp only
          by_cases haff : (s.pl cOwn).cash_limit
              ≤ (s.pl cOwn).money
                - ((s.propAt they_want).cost_base
                  - (s.propAt i_want).cost_base)
          · rw [if_pos haff]; right; exact ⟨_, rfl⟩
          · rw [if_neg haff]; left; rfl
    · rw [if_neg hc]
      dsimp only
      cases hA : (s.propAt they_want).owner with
      | none => left; rfl
      | some cOwn =>
        cases hB : (s.propAt i_want).owner with
        | none => left; rfl
        | some eOwn =>
          dsimp only
          by_cases haff : (s.pl cOwn).cash_limit
              ≤ (s.pl cOwn).money
                - ((s.propAt i_want).cost_base
                  - (s.propAt they_want).cost_base)
          · rw [if_pos haff]; right; exact ⟨_, rfl⟩
          · rw [if_neg haff]; left; rfl
  · rw [if_neg h1]; left; rfl

theorem twoWayInner_fresh (pid i_want : Nat) :
    ∀ (tws : List Nat) (s : Board) (th : Bool),
    (th = true → s.cachedListsFresh = true) →
    ((Board.twoWayInner s pid i_want tws th).2 = true →
      (Board.twoWayInner s pid i_want tws th).1.cachedListsFresh = true) := by
  intro tws
  induction tws with
  | nil =>
    intro s th h
    simpa [Board.twoWayInner] using h
  | cons tw rest ih =>
    intro s th h
    simp only [Board.twoWayInner]
    rcases twoWayCandidate_cases s pid i_want tw with hc | ⟨t, hc⟩
    · rw [hc]
      exact ih s (th || false) (by simpa using h)
    · rw [hc]
      exact ih _ (th || true) (fun _ => cachedListsFresh_recalc t)

theorem twoWayOuter_fresh (pid : Nat) :
    ∀ (iws : List Nat) (s : Board) (th : Bool),
    (th = true → s.cachedListsFresh = true) →
    ((Board.twoWayOuter s pid iws th).2 = true →
      (Board.twoWayOuter s pid iws th).1.cachedListsFresh = true) := by
  intro iws
  induction iws with
  | nil =>
    intro s th h
    simpa [Board.twoWayOuter] using h
  | cons iw rest ih =>
    intro s th h
    simp only [Board.twoWayOuter]
    cases ho : (s.propAt iw).owner with
    | none => exact ih s th h
    | some oid =>
      exact ih _ _ (twoWayInner_fresh pid iw _ s th h)

/-- C5 (amended): after every executed swap the source immediately and fully
recomputes every player's wanted/offered/build lists — so whenever a pass
reports a trade, the cached lists at exit agree with a fresh recomputation of
the final state. The pass does NOT, however, re-enumerate its candidates from
the recomputed lists: the loops keep iterating pre-swap snapshots, so a later
match decision in the same pass can use pre-swap list contents (see the
counterexample's degenerate self-swap). -/
theorem claim5_amended_recalc_fresh (s : Board) (pid : Nat)
    (h : (s.two_way_trade pid).2 = true) :
    (s.two_way_trade pid).1.cachedListsFresh = true := by
  unfold Board.two_way_trade at h ⊢
  exact twoWayOuter_fresh pid ((s.pl pid).plots_wanted.reverse) s false
    (fun hff => (Bool.false_ne_true hff).elim) h

/-- Witness for the amended C5: the concrete pass executes trades, and the
final state's cached lists match a fresh recomputation. -/
theorem claim5_witness :
    (c5state.two_way_trade 0).2 = true
    ∧ (c5state.two_way_trade 0).1.cachedListsFresh = true :=
  ⟨by decide, claim5_amended_recalc_fresh c5state 0 (by decide)⟩

theorem modifyIdx_modifyIdx (l : List α) (i : Nat) (f g : α → α) :
    modifyIdx (modifyIdx l i f) i g = modifyIdx l i (fun a => g (f a)) := by
  induction l generalizing i with
  | nil => rfl
  | cons a as ih =>
    cases i with
    | zero => rfl
    | succ n => simpa [modifyIdx] using ih n

theorem setPl_setPl (s : Board) (pid : Nat) (f g : Player → Player) :
    (s.setPl pid f).setPl pid g = s.setPl pid (fun p => g (f p)) := by
  unfold Board.setPl
  rw [modifyIdx_modifyIdx]

theorem repayLoop_nil (fuel : Nat) (s : Board) (pid : Nat)
    (h : (s.pl pid).has_mortgages = []) :
    Board.repayLoop fuel s pid = s := by
  cases fuel with
  | zero => rfl
  | succ n =>
    have hr : s.repay_mortgage pid = (s, false) := by
      unfold Board.repay_mortgage Player.cheapest_mortgage
      rw [h]
      rfl
    simp [Board.repayLoop, hr]

theorem buildLoop_nil (fuel : Nat) (s : Board) (pid : Nat)
    (h : (s.pl pid).plots_to_build = []) :
    Board.buildLoop fuel s pid = s := by
  cases fuel with
  | zero => rfl
  | succ n =>
    have hr : s.improve_property pid ((s.pl pid).money - (s.pl pid).cash_limit)
        = (s, false) := by
      unfold Board.improve_property Board.choose_property_to_build
      rw [h]
      rfl
    simp [Board.buildLoop, hr]

theorem two_way_trade_nil (s : Board) (pid : Nat)
    (h : (s.pl pid).plots_wanted = []) : s.two_way_trade pid = (s, false) := by
  unfold Board.two_way_trade
  rw [h]
  rfl

theorem three_way_trade_nil (s : Board) (pid : Nat)
    (h : (s.pl pid).plots_wanted = []) : s.three_way_trade pid = s := by
  unfold Board.three_way_trade
  rw [h]
  rfl

theorem check_bankruptcy_nonneg (s : Board) (pid : Nat)
    (h : 0 ≤ (s.pl pid).money) : s.check_bankruptcy pid = s := by
  have hloop : Board.check_bankruptcy_loop (s.liqMeasure pid + 1) s pid
      = some s := by
    simp only [Board.check_bankruptcy_loop]
    rw [if_neg (by omega)]
  unfold Board.check_bankruptcy
  rw [hloop]
  rfl

theorem actionF_freeParking (fuel : Nat) (s : Board) (pid pos : Nat)
    (special : String) (h : s.b.get? pos = some Cell.freeParking) :
    Board.actionF (fuel+1) s pid pos special = s := by
  simp only [Board.actionF]
  rw [h]

theorem action_freeParking (s : Board) (pid pos : Nat) (special : String)
    (h : s.b.get? pos = some Cell.freeParking) :
    s.action pid pos special = s :=
  actionF_freeParking 7 s pid pos special h

/-- C6: a player not in jail who rolls a double for the third consecutive
time is sent straight to jail: `in_jail` becomes true, the doubles counter
resets to zero, the call returns `false` (no extra turn), the cell action is
skipped entirely and nothing on the board, the decks or the other players
changes — the player's position becomes the jail cell 10, independent of the
dice, so the roll itself contributes no movement. (Hypotheses pin the
pre-roll economics to no-ops: no mortgages, no cached build candidates, no
cached wanted plots.) -/
theorem claim6_third_double_jail (s : Board) (pid d : Nat) (pl : Player)
    (hget : s.players.get? pid = some pl)
    (hbk : pl.is_bankrupt = false)
    (hm : pl.has_mortgages = [])
    (hb : pl.plots_to_build = [])
    (hw : pl.plots_wanted = [])
    (hj : pl.in_jail = false)
    (hd : pl.consequent_doubles = 2) :
    s.make_a_move pid d d
      = (s.setPl pid (fun p =>
          { p with
            dice := (d, d),
            consequent_doubles := 0,
            in_jail := true,
            position := 10 }), false) := by
  have hpl : s.pl pid = pl := pl_eq_of_get? s pid pl hget
  have hm' : (s.pl pid).has_mortgages = [] := by rw [hpl]; exact hm
  have hb' : (s.pl pid).plots_to_build = [] := by rw [hpl]; exact hb
  have hw' : (s.pl pid).plots_wanted = [] := by rw [hpl]; exact hw
  have hcond1 : ¬ ((s.pl pid).is_bankrupt = true) := by
    rw [hpl, hbk]; simp
  simp only [Board.make_a_move, Board.move_to]
  rw [if_neg hcond1]
  rw [repayLoop_nil _ s pid hm']
  rw [buildLoop_nil _ s pid hb']
  have hcond2 : ¬ (expRefuseTrade = true ∧ (s.pl pid).name = "exp") := by
    simp [expRefuseTrade]
  rw [if_neg hcond2]
  rw [if_pos (show behaveDoTrade = true from rfl)]
  rw [two_way_trade_nil s pid hw']
  have hcond3 : ((s, false) : Board × Bool).2 = false ∧ 3 ≤ n_players
      ∧ behaveDoThreeWayTrade = true := by
    refine ⟨rfl, by simp [n_players], rfl⟩
  rw [if_pos hcond3]
  have h3w : ((s, false) : Board × Bool).1.three_way_trade pid = s :=
    three_way_trade_nil s pid hw'
  rw [h3w]
  have hs4 : ((s.setPl pid fun p => { p with dice := (d, d) }).pl pid)
      = { pl with dice := (d, d) } :=
    pl_setPl_self s pid _ pl hget
  have hcond4 : True ∧ ((s.setPl pid fun p =>
      { p with dice := (d, d) }).pl pid).in_jail = false := by
    refine ⟨trivial, ?_⟩
    rw [hs4]
    exact hj
  rw [if_pos hcond4]
  have hget4 : (s.setPl pid fun p => { p with dice := (d, d) }).players.get?
      pid = some { pl with dice := (d, d) } :=
    modifyIdx_get?_self s.players pid _ pl hget
  have hs5 : (((s.setPl pid fun p => { p with dice := (d, d) }).setPl pid
      fun p => { p with consequent_doubles := p.consequent_doubles + 1 }).pl
        pid)
      = { pl with
          dice := (d, d),
          consequent_doubles := pl.consequent_doubles + 1 } :=
    pl_setPl_self _ pid _ _ hget4
  have hcond5 : (((s.setPl pid fun p => { p with dice := (d, d) }).setPl pid
      fun p => { p with consequent_doubles := p.consequent_doubles + 1 }).pl
        pid).consequent_doubles = 3 := by
    rw [hs5]
    show pl.consequent_doubles + 1 = 3
    omega
  rw [if_pos hcond5]
  rw [setPl_setPl, setPl_setPl, setPl_setPl, setPl_setPl]

/-- Concrete player for the C6 witness: two consecutive doubles already
rolled. -/
def c6player : Player :=
  { mkPlayer "p0" 1500 with consequent_doubles := 2 }

/-- Concrete state for the C6 witness. -/
def c6state : Board := initBoard [c6player]

/-- Witness for C6 at a concrete input: a third double (3,3) jails player 0
without movement from the roll. -/
theorem claim6_witness :
    c6state.make_a_move 0 3 3
      = (c6state.setPl 0 (fun p =>
          { p with
            dice := (3, 3),
            consequent_doubles := 0,
            in_jail := true,
            position := 10 }), false) :=
  claim6_third_double_jail c6state 0 3 c6player (by rfl) (by rfl) (by rfl)
    (by rfl) (by rfl) (by rfl) (by rfl)

theorem setPl_chanceCards (s : Board) (pid : Nat) (f : Player → Player)
    (c : List Nat) :
    ({ s with chanceCards := c } : Board).setPl pid f
      = { s.setPl pid f with chanceCards := c } := rfl



/-- Movement tail of `make_a_move` when the landing cell has no action, no GO
wrap occurs and the player stays solvent: clear `in_jail`, advance by the
dice total, and return the carried go-again flag. -/
theorem moveAndAct_inert (v : Board) (pid d1 d2 : Nat) (r : Player) (g : Bool)
    (hget : v.players.get? pid = some r)
    (hmoney : 0 ≤ r.money)
    (hpos : r.position + d1 + d2 < 40)
    (hcell : v.b.get? (r.position + d1 + d2) = some Cell.freeParking) :
    v.moveAndAct pid d1 d2 g
      = (v.setPl pid (fun p =>
          { p with in_jail := false, position := p.position + d1 + d2 }), g) := by
  simp only [Board.moveAndAct]
  have hgA : (v.setPl pid fun p => { p with in_jail := false }).players.get?
      pid = some { r with in_jail := false } :=
    modifyIdx_get?_self v.players pid _ r hget
  have hgB : ((v.setPl pid fun p => { p with in_jail := false }).setPl pid
      fun p => { p with position := p.position + d1 + d2 }).players.get? pid
      = some { r with
               in_jail := false,
               position := r.position + d1 + d2 } :=
    modifyIdx_get?_self _ pid _ _ hgA
  have hB : ((v.setPl pid fun p => { p with in_jail := false }).setPl pid
      fun p => { p with position := p.position + d1 + d2 }).pl pid
      = { r with in_jail := false, position := r.position + d1 + d2 } :=
    pl_eq_of_get? _ pid _ hgB
  have harg : (((v.setPl pid fun p => { p with in_jail := false }).setPl pid
      fun p => { p with position := p.position + d1 + d2 }).pl pid).position
      = r.position + d1 + d2 := by rw [hB]
  rw [harg]
  rw [if_neg (show ¬ (40 ≤ r.position + d1 + d2) by omega)]
  rw [harg]
  rw [action_freeParking _ pid (r.position + d1 + d2) ""
    (show ((v.setPl pid fun p => { p with in_jail := false }).setPl pid
      fun p => { p with position := p.position + d1 + d2 }).b.get?
        (r.position + d1 + d2) = some Cell.freeParking from hcell)]
  rw [check_bankruptcy_nonneg _ pid (show (0:Int) ≤ (((v.setPl pid fun p =>
      { p with in_jail := false }).setPl pid
      fun p => { p with position := p.position + d1 + d2 }).pl pid).money
    by rw [hB]; exact hmoney)]
  rw [setPl_setPl]

/-- The chance-card branch of the jail block followed by normal movement:
spending the card releases the player, returns card `1` to the chance deck,
and play continues with ordinary movement by the dice total (here onto an
effect-free cell, without passing GO). -/
theorem jail_card_path (u : Board) (pid d1 d2 : Nat) (q : Player)
    (hget : u.players.get? pid = some q)
    (hj : q.in_jail = true)
    (hcard : q.has_jail_card_chance = true)
    (hmoney : 0 ≤ q.money)
    (hpos : q.position + d1 + d2 < 40)
    (hcell : u.b.get? (q.position + d1 + d2) = some Cell.freeParking) :
    u.jailAndMove pid d1 d2 false
      = ({ u.setPl pid (fun p =>
            { p with
              has_jail_card_chance := false,
              in_jail := false,
              position := p.position + d1 + d2 }) with
          chanceCards := u.chanceCards ++ [1] }, false) := by
  have hq : u.pl pid = q := pl_eq_of_get? u pid q hget
  simp only [Board.jailAndMove]
  rw [if_pos (show (u.pl pid).in_jail = true by rw [hq]; exact hj)]
  rw [if_pos (show (u.pl pid).has_jail_card_chance = true
    by rw [hq]; exact hcard)]
  have hgT : ({ u.setPl pid fun p =>
      { p with has_jail_card_chance := false } with
      chanceCards := (u.setPl pid fun p =>
        { p with has_jail_card_chance := false }).chanceCards ++ [1] }
      : Board).players.get? pid = some { q with has_jail_card_chance := false }
    := modifyIdx_get?_self u.players pid _ q hget
  have hstep := moveAndAct_inert ({ u.setPl pid fun p =>
      { p with has_jail_card_chance := false } with
      chanceCards := (u.setPl pid fun p =>
        { p with has_jail_card_chance := false }).chanceCards ++ [1] }
      : Board) pid d1 d2 { q with has_jail_card_chance := false } false
    hgT hmoney hpos hcell
  have hcollapse : (({ u.setPl pid fun p =>
      { p with has_jail_card_chance := false } with
      chanceCards := (u.setPl pid fun p =>
        { p with has_jail_card_chance := false }).chanceCards ++ [1] }
      : Board).setPl pid (fun p =>
        { p with in_jail := false, position := p.position + d1 + d2 }))
      = ({ u.setPl pid (fun p =>
            { p with
              has_jail_card_chance := false,
              in_jail := false,
              position := p.position + d1 + d2 }) with
          chanceCards := u.chanceCards ++ [1] } : Board) := by
    rw [setPl_chanceCards, setPl_setPl]
    rfl
  rw [hcollapse] at hstep
  exact hstep

/-- C2 (amended): in `make_a_move`, a jailed player holding the chance
get-out-of-jail card spends it with highest precedence — before the doubles
and pay-fine branches — and is released immediately; but the dice ARE then
consumed for movement: play falls through to the normal movement step and the
position advances by the dice total (here onto an effect-free cell, without
passing GO). The spent card `1` returns to the chance deck. (Hypotheses pin
the pre-roll economics to no-ops: no mortgages, no cached build candidates,
no cached wanted plots.) -/
theorem claim2_amended_jail_card (s : Board) (pid d1 d2 : Nat) (pl : Player)
    (hget : s.players.get? pid = some pl)
    (hbk : pl.is_bankrupt = false)
    (hm : pl.has_mortgages = [])
    (hb : pl.plots_to_build = [])
    (hw : pl.plots_wanted = [])
    (hj : pl.in_jail = true)
    (hcard : pl.has_jail_card_chance = true)
    (hmoney : 0 ≤ pl.money)
    (hpos : pl.position + d1 + d2 < 40)
    (hcell : s.b.get? (pl.position + d1 + d2) = some Cell.freeParking) :
    s.make_a_move pid d1 d2
      = ({ s.setPl pid (fun p =>
            { p with
              dice := (d1, d2),
              consequent_doubles := 0,
              has_jail_card_chance := false,
              in_jail := false,
              position := p.position + d1 + d2 }) with
          chanceCards := s.chanceCards ++ [1] }, false) := by
  have hpl : s.pl pid = pl := pl_eq_of_get? s pid pl hget
  have hm' : (s.pl pid).has_mortgages = [] := by rw [hpl]; exact hm
  have hb' : (s.pl pid).plots_to_build = [] := by rw [hpl]; exact hb
  have hw' : (s.pl pid).plots_wanted = [] := by rw [hpl]; exact hw
  have hcond1 : ¬ ((s.pl pid).is_bankrupt = true) := by
    rw [hpl, hbk]; simp
  simp only [Board.make_a_move]
  rw [if_neg hcond1]
  rw [repayLoop_nil _ s pid hm']
  rw [buildLoop_nil _ s pid hb']
  have hcond2 : ¬ (expRefuseTrade = true ∧ (s.pl pid).name = "exp") := by
    simp [expRefuseTrade]
  rw [if_neg hcond2]
  rw [if_pos (show behaveDoTrade = true from rfl)]
  rw [two_way_trade_nil s pid hw']
  have hcond3 : ((s, false) : Board × Bool).2 = false ∧ 3 ≤ n_players
      ∧ behaveDoThreeWayTrade = true := by
    refine ⟨rfl, by simp [n_players], rfl⟩
  rw [if_pos hcond3]
  have h3w : ((s, false) : Board × Bool).1.three_way_trade pid = s :=
    three_way_trade_nil s pid hw'
  rw [h3w]
  have hs4 : ((s.setPl pid fun p => { p with dice := (d1, d2) }).pl pid)
      = { pl with dice := (d1, d2) } :=
    pl_setPl_self s pid _ pl hget
  have hcond4 : ¬ (d1 = d2 ∧ ((s.setPl pid fun p =>
      { p with dice := (d1, d2) }).pl pid).in_jail = false) := by
    rintro ⟨-, hfj⟩
    rw [hs4] at hfj
    have hfj' : pl.in_jail = false := hfj
    rw [hj] at hfj'
    exact Bool.noConfusion hfj'
  rw [if_neg hcond4]
  have hget4 : (s.setPl pid fun p => { p with dice := (d1, d2) }).players.get?
      pid = some { pl with dice := (d1, d2) } :=
    modifyIdx_get?_self s.players pid _ pl hget
  have hget5 : ((s.setPl pid fun p => { p with dice := (d1, d2) }).setPl pid
      fun p => { p with consequent_doubles := 0 }).players.get? pid
      = some { pl with dice := (d1, d2), consequent_doubles := 0 } :=
    modifyIdx_get?_self _ pid _ _ hget4
  have hj2 : ({ pl with
      dice := (d1, d2), consequent_doubles := 0 } : Player).in_jail
      = true := hj
  have hcard2 : ({ pl with
      dice := (d1, d2), consequent_doubles := 0 } : Player).has_jail_card_chance
      = true := hcard
  have hmoney2 : (0:Int) ≤ ({ pl with
      dice := (d1, d2), consequent_doubles := 0 } : Player).money := hmoney
  have hpos2 : ({ pl with
      dice := (d1, d2), consequent_doubles := 0 } : Player).position + d1 + d2
      < 40 := hpos
  have hcell2 : ((s.setPl pid fun p => { p with dice := (d1, d2) }).setPl pid
      fun p => { p with consequent_doubles := 0 }).b.get?
      (({ pl with
          dice := (d1, d2), consequent_doubles := 0 } : Player).position
        + d1 + d2)
      = some Cell.freeParking := hcell
  have hstep := jail_card_path ((s.setPl pid fun p =>
      { p with dice := (d1, d2) }).setPl pid
      fun p => { p with consequent_doubles := 0 }) pid d1 d2
    { pl with dice := (d1, d2), consequent_doubles := 0 }
    hget5 hj2 hcard2 hmoney2 hpos2 hcell2
  rw [hstep, setPl_setPl, setPl_setPl]
  rfl

/-- Concrete player for the C2 scenario: in jail on cell 10 holding the
chance get-out-of-jail card. -/
def c2player : Player :=
  { mkPlayer "p0" 1500 with
    position := 10,
    in_jail := true,
    days_in_jail := 1,
    has_jail_card_chance := true }

/-- Concrete state for the C2 scenario. -/
def cs2 : Board := initBoard [c2player]

/-- C2 counterexample to the original claim: the jailed card-holder who rolls
(4,6) is released AND moved from cell 10 to cell 20 — the position advances
by exactly the dice total, the card is spent. -/
theorem claim2_counterexample :
    (cs2.pl 0).position = 10
    ∧ ((cs2.make_a_move 0 4 6).1.pl 0).position = 20
    ∧ ((cs2.make_a_move 0 4 6).1.pl 0).in_jail = false
    ∧ ((cs2.make_a_move 0 4 6).1.pl 0).has_jail_card_chance = false := by
  decide

/-- Witness for the amended C2 theorem at a concrete input. -/
theorem claim2_witness :
    cs2.make_a_move 0 4 6
      = ({ cs2.setPl 0 (fun p =>
            { p with
              dice := (4, 6),
              consequent_doubles := 0,
              has_jail_card_chance := false,
              in_jail := false,
              position := p.position + 4 + 6 }) with
          chanceCards := cs2.chanceCards ++ [1] }, false) :=
  claim2_amended_jail_card cs2 0 4 6 c2player (by rfl) (by rfl) (by rfl)
    (by rfl) (by rfl) (by rfl) (by rfl) (by decide) (by decide) (by rfl)

/-- Modifying one list element whose `f`-value strictly drops strictly
decreases the sum of the `f`-image. -/
theorem sum_map_modifyIdx_lt (f : α → Nat) (l : List α) (i : Nat) (g : α → α)
    (c : α) (hget : l.get? i = some c) (hlt : f (g c) < f c) :
    ((modifyIdx l i g).map f).sum < (l.map f).sum := by
  induction l generalizing i with
  | nil => simp at hget
  | cons x xs ih =>
    cases i with
    | zero =>
      have hc : x = c := by simpa using hget
      subst hc
      simp only [modifyIdx, List.map_cons, List.sum_cons]
      omega
    | succ n =>
      simp only [modifyIdx, List.map_cons, List.sum_cons]
      have := ih n (by simpa using hget)
      omega

/-- A projection invariant under the modification is unchanged at every
`getD` read of the modified list. -/
theorem getD_modifyIdx_proj {β : Type} (l : List α) (j q : Nat) (f : α → α)
    (g : α → β) (d : α) (hf : ∀ p, g (f p) = g p) :
    g ((modifyIdx l j f).getD q d) = g (l.getD q d) := by
  induction l generalizing j q with
  | nil => rfl
  | cons x xs ih =>
    cases j with
    | zero =>
      cases q with
      | zero => simpa [modifyIdx] using hf x
      | succ m => simp [modifyIdx]
    | succ n =>
      cases q with
      | zero => simp [modifyIdx]
      | succ m => simpa [modifyIdx] using ih n m

theorem pl_of_get?_none (s : Board) (pid : Nat)
    (h : s.players.get? pid = none) : s.pl pid = default := by
  simp [Board.pl, List.getD_eq_getElem?_getD, ← List.get?_eq_getElem?, h]

/-- The board cells after one `mortgage` step: exactly one cell is updated,
according to the branch taken. -/
theorem mortgage_b (s : Board) (w pid : Nat) :
    (s.mortgage w pid).b
      = if (s.propAt w).hasHouses = 5 then
          modifyIdx s.b w (fun c => match c with
            | Cell.property q => Cell.property { q with hasHouses := 0 }
            | c => c)
        else if 0 < (s.propAt w).hasHouses then
          modifyIdx s.b w (fun c => match c with
            | Cell.property q =>
              Cell.property { q with hasHouses := q.hasHouses - 1 }
            | c => c)
        else
          modifyIdx s.b w (fun c => match c with
            | Cell.property q => Cell.property { q with is_mortgaged := true }
            | c => c) := by
  simp only [Board.mortgage]
  split_ifs <;> rfl

/-- Refreshing monopoly flags and cached lists does not change the
liquidation measure. -/
theorem liqMeasure_recalc (s : Board) (pid : Nat) :
    (s.recalculate_after_property_change).liqMeasure pid
      = s.liqMeasure pid := by
  show ((s.b.map fun c => match c with
      | Cell.property p => Cell.property { p with is_monopoly :=
          (match assocFind (monopolyGroups s.b []) p.group with
           | some (some _) => true
           | _ => false) }
      | c => c).map (liqMeasureCell pid)).sum
    = (s.b.map (liqMeasureCell pid)).sum
  rw [List.map_map]
  congr 1
  apply List.map_congr_left
  intro c _
  cases c <;> rfl

/-- Updating one property through an owner-preserving function keeps every
cell's ownership. -/
theorem b_modify_owner_pres (l : List Cell) (w i : Nat)
    (f : Property → Property) (hf : ∀ q, (f q).owner = q.owner) (p : Property)
    (h : l.get? i = some (Cell.property p)) :
    ∃ p', (modifyIdx l w (fun c => match c with
        | Cell.property q => Cell.property (f q)
        | c => c)).get? i = some (Cell.property p') ∧ p'.owner = p.owner := by
  by_cases hwi : w = i
  · subst hwi
    refine ⟨f p, ?_, hf p⟩
    exact modifyIdx_get?_self l w (fun c => match c with
        | Cell.property q => Cell.property (f q)
        | c => c) (Cell.property p) h
  · refine ⟨p, ?_, rfl⟩
    rw [modifyIdx_get?_ne l w i _ hwi]
    exact h

/-- A `mortgage` step never changes any cell's owner. -/
theorem mortgage_prop (s : Board) (w pid i : Nat) (p : Property)
    (h : s.b.get? i = some (Cell.property p)) :
    ∃ p', (s.mortgage w pid).b.get? i = some (Cell.property p')
      ∧ p'.owner = p.owner := by
  rw [mortgage_b]
  split_ifs with h5 h1
  · exact b_modify_owner_pres s.b w i (fun q => { q with hasHouses := 0 })
      (fun q => rfl) p h
  · exact b_modify_owner_pres s.b w i
      (fun q => { q with hasHouses := q.hasHouses - 1 }) (fun q => rfl) p h
  · exact b_modify_owner_pres s.b w i (fun q => { q with is_mortgaged := true })
      (fun q => rfl) p h

/-- A `mortgage` step on an unmortgaged plot of the player strictly
decreases the liquidation measure. -/
theorem liqMeasure_mortgage_lt (s : Board) (w pid : Nat) (p : Property)
    (hget : s.b.get? w = some (Cell.property p))
    (hmort : p.is_mortgaged = false) (hown : p.owner = some pid) :
    (s.mortgage w pid).liqMeasure pid < s.liqMeasure pid := by
  have hpAt : s.propAt w = p := propAt_of_get? s w p hget
  show ((s.mortgage w pid).b.map (liqMeasureCell pid)).sum
    < (s.b.map (liqMeasureCell pid)).sum
  rw [mortgage_b, hpAt]
  split_ifs with h5 h1
  · refine sum_map_modifyIdx_lt _ _ _ _ _ hget ?_
    simp [liqMeasureCell, hown, hmort, h5]
  · refine sum_map_modifyIdx_lt _ _ _ _ _ hget ?_
    simp only [liqMeasureCell, hown, hmort]
    simp
    omega
  · refine sum_map_modifyIdx_lt _ _ _ _ _ hget ?_
    simp [liqMeasureCell, hown, hmort]

/-- The first-strict-minimum fold returns an element of the scanned list. -/
theorem foldl_min_mem (x : MortCand) (xs : List MortCand) :
    xs.foldl (fun best y => if mortKeyLt y best then y else best) x
      ∈ x :: xs := by
  induction xs generalizing x with
  | nil => simp
  | cons y ys ih =>
    simp only [List.foldl_cons]
    rcases List.mem_cons.mp (ih (if mortKeyLt y x then y else x)) with h1 | h2
    · rw [h1]
      by_cases hk : mortKeyLt y x = true
      · rw [if_pos hk]
        exact List.mem_cons_of_mem x (List.mem_cons_self y ys)
      · rw [if_neg hk]
        exact List.mem_cons_self x (y :: ys)
    · exact List.mem_cons_of_mem x (List.mem_cons_of_mem y h2)

/-- Every collected mortgage candidate records an actual unmortgaged plot of
the player at its index. -/
theorem mortCands_mem (s : Board) (pid : Nat) (m : MortCand)
    (h : m ∈ s.mortCands pid) :
    ∃ p, s.b.get? m.idx = some (Cell.property p)
      ∧ p.is_mortgaged = false ∧ p.owner = some pid := by
  unfold Board.mortCands at h
  rcases List.mem_filterMap.mp h with ⟨i, -, hf⟩
  cases hb : s.b.get? i with
  | none => rw [hb] at hf; simp at hf
  | some c =>
    cases c with
    | property p =>
      rw [hb] at hf
      dsimp only at hf
      by_cases hc : p.is_mortgaged = false ∧ p.owner = some pid
      · rw [if_pos hc] at hf
        have hm := Option.some.inj hf
        subst hm
        exact ⟨p, hb, hc.1, hc.2⟩
      · rw [if_neg hc] at hf
        exact absurd hf (by simp)
    | go => rw [hb] at hf; simp at hf
    | prison => rw [hb] at hf; simp at hf
    | freeParking => rw [hb] at hf; simp at hf
    | luxuryTax => rw [hb] at hf; simp at hf
    | propertyTax => rw [hb] at hf; simp at hf
    | goToJail => rw [hb] at hf; simp at hf
    | chance => rw [hb] at hf; simp at hf
    | community => rw [hb] at hf; simp at hf

/-- When `choose_property_to_mortgage_downgrade` picks an index, that index
holds an unmortgaged plot owned by the player. -/
theorem choose_mortgage_sound (s : Board) (pid w : Nat)
    (h : s.choose_property_to_mortgage_downgrade pid = some w) :
    ∃ p, s.b.get? w = some (Cell.property p)
      ∧ p.is_mortgaged = false ∧ p.owner = some pid := by
  unfold Board.choose_property_to_mortgage_downgrade at h
  cases hmc : s.mortCands pid with
  | nil => rw [hmc] at h; exact absurd h (by simp)
  | cons x xs =>
    rw [hmc] at h
    have hmem : (xs.foldl (fun best y => if mortKeyLt y best then y else best)
        x) ∈ s.mortCands pid := by
      rw [hmc]; exact foldl_min_mem x xs
    obtain ⟨p, hp, h1, h2⟩ := mortCands_mem s pid _ hmem
    have hw : (xs.foldl (fun best y => if mortKeyLt y best then y else best)
        x).idx = w := by simpa using h
    rw [hw] at hp
    exact ⟨p, hp, h1, h2⟩

/-- A `mortgage` step never changes any player's bankruptcy flag. -/
theorem mortgage_is_bankrupt (s : Board) (w pid q : Nat) :
    ((s.mortgage w pid).pl q).is_bankrupt = (s.pl q).is_bankrupt := by
  simp only [Board.mortgage]
  split_ifs with h5 h1
  · exact getD_modifyIdx_proj s.players pid q _ Player.is_bankrupt default
      (fun p => rfl)
  · exact getD_modifyIdx_proj s.players pid q _ Player.is_bankrupt default
      (fun p => rfl)
  · exact (getD_modifyIdx_proj
      (modifyIdx s.players pid fun p =>
        { p with money := p.money + Int.fdiv (s.propAt w).cost_base 2 })
      pid q
      (fun p => { p with has_mortgages := p.has_mortgages
        ++ [(w, Int.fdiv (Int.fdiv (s.propAt w).cost_base 2 * 11) 10)] })
      Player.is_bankrupt default (fun p => rfl)).trans
      (getD_modifyIdx_proj s.players pid q
        (fun p => { p with money := p.money + Int.fdiv (s.propAt w).cost_base 2 })
        Player.is_bankrupt default (fun p => rfl))

/-- One full loop step (mortgage + recalculation) preserves the player's
bankruptcy flag. -/
theorem step_is_bankrupt (s : Board) (w pid : Nat) :
    ((((s.mortgage w pid).recalculate_after_property_change)).pl pid).is_bankrupt
      = (s.pl pid).is_bankrupt := by
  rw [(recalc_pl (s.mortgage w pid) pid).2.1, mortgage_is_bankrupt]

/-- One full loop step (mortgage + recalculation) preserves every cell's
ownership. -/
theorem step_prop_owner (s : Board) (w pid i : Nat) (p : Property)
    (h : s.b.get? i = some (Cell.property p)) :
    ∃ p', (((s.mortgage w pid).recalculate_after_property_change)).b.get? i
        = some (Cell.property p') ∧ p'.owner = p.owner := by
  obtain ⟨q, hq, hqo⟩ := mortgage_prop s w pid i p h
  obtain ⟨p', hp', hpo, -, -, -, -⟩ := recalc_owner _ i _ hq
  exact ⟨p', hp', hpo.trans hqo⟩

/-- `sell_all` releases every plot of the player: owner cleared, mortgage
flag cleared. -/
theorem sell_all_clears (s : Board) (pid : Nat) (i : Nat) (p : Property)
    (h : s.b.get? i = some (Cell.property p)) (hown : p.owner = some pid) :
    (s.sell_all pid).b.get? i
      = some (Cell.property { p with owner := none, is_mortgaged := false }) := by
  show (s.b.map _).get? i = _
  rw [List.get?_map, h]
  simp [hown]

/-- The bankruptcy loop, run with more fuel than the liquidation measure,
always returns; the result has non-negative cash unless the player was
marked bankrupt, and a fresh bankruptcy releases every plot the player owned
on entry (owner cleared, mortgage flag cleared). -/
theorem check_bankruptcy_loop_post : ∀ (fuel : Nat) (s : Board) (pid : Nat),
    s.liqMeasure pid < fuel →
    ∃ s', Board.check_bankruptcy_loop fuel s pid = some s'
      ∧ ((s'.pl pid).is_bankrupt = false → 0 ≤ (s'.pl pid).money)
      ∧ ((s'.pl pid).is_bankrupt = true → (s.pl pid).is_bankrupt = false →
          ∀ i p, s.b.get? i = some (Cell.property p) → p.owner = some pid →
            ∃ p', s'.b.get? i = some (Cell.property p')
              ∧ p'.owner = none ∧ p'.is_mortgaged = false) := by
  intro fuel
  induction fuel with
  | zero => intro s pid h; omega
  | succ n ih =>
    intro s pid h
    by_cases hmoney : (s.pl pid).money < 0
    · cases hch : s.choose_property_to_mortgage_downgrade pid with
      | none =>
        have hpl : ∃ pl, s.players.get? pid = some pl := by
          cases hg : s.players.get? pid with
          | some pl => exact ⟨pl, rfl⟩
          | none =>
            exfalso
            rw [pl_of_get?_none s pid hg] at hmoney
            exact absurd hmoney (by decide)
        obtain ⟨pl, hget⟩ := hpl
        refine ⟨(((s.setPl pid fun p => { p with is_bankrupt := true }).sell_all
            pid)).recalculate_after_property_change, ?_, ?_, ?_⟩
        · simp only [Board.check_bankruptcy_loop]
          rw [if_pos hmoney, hch]
        · intro hfalse
          rw [(recalc_pl _ pid).2.1] at hfalse
          have hsp : (((s.setPl pid fun p =>
              { p with is_bankrupt := true }).sell_all pid)).pl pid
              = { pl with is_bankrupt := true } :=
            pl_setPl_self s pid (fun p => { p with is_bankrupt := true }) pl
              hget
          rw [hsp] at hfalse
          exact absurd hfalse (by simp)
        · intro _ _ i p hi hown
          have h1 : (s.setPl pid fun p' =>
              { p' with is_bankrupt := true }).b.get? i
              = some (Cell.property p) := hi
          have h2 := sell_all_clears (s.setPl pid fun p' =>
            { p' with is_bankrupt := true }) pid i p h1 hown
          obtain ⟨p', hp', hpo, hpm, -, -, -⟩ := recalc_owner _ i _ h2
          exact ⟨p', hp', hpo.trans rfl, hpm.trans rfl⟩
      | some worst =>
        obtain ⟨p, hp, hpm, hpo⟩ := choose_mortgage_sound s pid worst hch
        have hdec : (((s.mortgage worst
            pid).recalculate_after_property_change)).liqMeasure pid
            < s.liqMeasure pid := by
          rw [liqMeasure_recalc]
          exact liqMeasure_mortgage_lt s worst pid p hp hpm hpo
        obtain ⟨s', hloop, h2, h3⟩ := ih ((s.mortgage worst
          pid).recalculate_after_property_change) pid (by omega)
        refine ⟨s', ?_, h2, ?_⟩
        · simp only [Board.check_bankruptcy_loop]
          rw [if_pos hmoney, hch]
          exact hloop
        · intro hb' hbs i p2 hi hown2
          have hbs' : ((((s.mortgage worst
              pid).recalculate_after_property_change)).pl pid).is_bankrupt
              = false := by
            rw [step_is_bankrupt]; exact hbs
          obtain ⟨pm, hpm2, hpmo⟩ := step_prop_owner s worst pid i p2 hi
          exact h3 hb' hbs' i pm hpm2 (by rw [hpmo]; exact hown2)
    · refine ⟨s, ?_, ?_, ?_⟩
      · simp only [Board.check_bankruptcy_loop]
        rw [if_neg hmoney]
      · intro _; omega
      · intro hb' hbs
        rw [hbs] at hb'
        exact absurd hb' (by decide)

/-- C7: bankruptcy resolution always terminates — the proven-sufficient fuel
bound `liqMeasure + 1` makes the `while self.money < 0` loop return — and
`check_bankruptcy` computes that result; if the player is not bankrupt
afterwards their cash is non-negative, and if the call marked them bankrupt
then every plot they owned beforehand ends unowned and unmortgaged. -/
theorem claim7_bankruptcy_resolution (s : Board) (pid : Nat) :
    ∃ s', Board.check_bankruptcy_loop (s.liqMeasure pid + 1) s pid = some s'
      ∧ s.check_bankruptcy pid = s'
      ∧ ((s'.pl pid).is_bankrupt = false → 0 ≤ (s'.pl pid).money)
      ∧ ((s'.pl pid).is_bankrupt = true → (s.pl pid).is_bankrupt = false →
          ∀ i p, s.b.get? i = some (Cell.property p) → p.owner = some pid →
            ∃ p', s'.b.get? i = some (Cell.property p')
              ∧ p'.owner = none ∧ p'.is_mortgaged = false) := by
  obtain ⟨s', h1, h2, h3⟩ :=
    check_bankruptcy_loop_post (s.liqMeasure pid + 1) s pid (by omega)
  refine ⟨s', h1, ?_, h2, h3⟩
  unfold Board.check_bankruptcy
  rw [h1]
  rfl
